import Mathlib

/-!
# GemRB: dialog state selection, widget actions, window dispatch, resource references

A shallow embedding of `gemrb/plugins/Core/Dialog.cpp`, `gemrb/core/GUI/Control.cpp`,
`gemrb/core/GUI/Window.cpp` and `gemrb/core/System/DataStream.cpp`, followed by the
properties proved about it.

Conventions of the embedding:

* C++ pointers to objects owned elsewhere are `Option`s (`none` is `NULL`);
* `int` and `unsigned int` values are `Int` and `Nat`; the sizes involved (number of
  dialog states, OR-group sizes) stay far below `2^31`, so no operation of the embedded
  functions wraps;
* a dereference of `NULL` and a failing `std::vector::at` are results of type `Fault`;
* calls into code outside the embedded files (`GameScript::EvaluateString`, `rand`,
  the callbacks bound to a widget, the virtual `View` queries) are parameters of the
  definitions; a callback bound to a widget is any function on the widget's state;
* what a call does besides changing the object (diagnostics printed, strings evaluated,
  callbacks invoked, dictionary writes) is returned next to the result as a count or trace.
-/

namespace GemRB

/-! ## Dialog.cpp: data model -/

/-- The `DialogString` record: `count` strings, each one scripted condition or action. -/
structure DialogString where
  strings : List String
deriving DecidableEq, Repr

/-- The `DialogTransition` record, as far as `Dialog.cpp` reads it. -/
structure DialogTransition where
  trigger : Option DialogString := none
  action : Option DialogString := none
deriving DecidableEq, Repr

/-- The `DialogState` record, as far as `Dialog.cpp` reads it. -/
structure DialogState where
  transitions : List DialogTransition := []
  trigger : Option DialogString := none
deriving DecidableEq, Repr

/-- The `Dialog` object: the vector `initialStates`. -/
structure Dialog where
  initialStates : List DialogState := []
deriving DecidableEq, Repr

/-- The ways an embedded function can leave the defined behaviour of C++. -/
inductive Fault where
  | outOfRange
  | nullDeref
deriving DecidableEq, Repr

deriving instance DecidableEq for Except

/-- Checked element access `std::vector::at`. -/
def vectorAt {α : Type} (v : List α) (index : Nat) : Except Fault α :=
  match v[index]? with
  | some x => .ok x
  | none => .error .outOfRange

/-- `Dialog::Dialog`: the empty dialog. -/
def Dialog.new : Dialog := { initialStates := [] }

/-- `Dialog::AddState`: `initialStates.push_back(ds)`. -/
def Dialog.AddState (d : Dialog) (ds : DialogState) : Dialog :=
  { d with initialStates := d.initialStates ++ [ds] }

/-- `Dialog::GetState`: `NULL` when `index >= initialStates.size()`, else
`initialStates.at(index)`. -/
def Dialog.GetState (d : Dialog) (index : Nat) : Except Fault (Option DialogState) :=
  if index ≥ d.initialStates.length then
    .ok none
  else
    (vectorAt d.initialStates index).map some

/-! ## Dialog.cpp: trigger evaluation -/

/-- What one run of `Dialog::EvaluateDialogTrigger` does: the value it returns, how often it
prints the "Unfinished OR block encountered!" diagnostic, and the strings it passed to
`GameScript::EvaluateString`, in call order. -/
structure TriggerRun where
  ret : Bool
  warnings : Nat
  evaluated : List String
deriving DecidableEq, Repr

/-- One more loop iteration in front of a run: string `s` was evaluated and `w`
diagnostics were printed before the rest of the run. -/
def TriggerRun.after (s : String) (w : Nat) (r : TriggerRun) : TriggerRun :=
  { ret := r.ret, warnings := w + r.warnings, evaluated := s :: r.evaluated }

/-- The `for` loop of `Dialog::EvaluateDialogTrigger` over the strings still to visit,
with the locals `ORcount` and `subresult`, followed by the code after the loop. -/
def EvaluateDialogTrigger.loop (ev : String → Int) : List String → Int → Bool → TriggerRun
  | [], ORcount, _ =>
    { ret := true, warnings := if ORcount ≠ 0 then 1 else 0, evaluated := [] }
  | s :: rest, ORcount, subresult =>
    let result := ev s
    if result > 1 then
      (EvaluateDialogTrigger.loop ev rest result false).after s (if ORcount ≠ 0 then 1 else 0)
    else if ORcount ≠ 0 then
      let subresult := subresult || (result != 0)
      let ORcount := ORcount - 1
      if ORcount ≠ 0 then
        (EvaluateDialogTrigger.loop ev rest ORcount subresult).after s 0
      else
        let result : Int := if subresult then 1 else 0
        if result = 0 then
          { ret := false, warnings := 0, evaluated := [s] }
        else
          (EvaluateDialogTrigger.loop ev rest ORcount subresult).after s 0
    else if result = 0 then
      { ret := false, warnings := 0, evaluated := [s] }
    else
      (EvaluateDialogTrigger.loop ev rest ORcount subresult).after s 0

/-- `Dialog::EvaluateDialogTrigger`; `EvaluateString` stands for
`GameScript::EvaluateString`. -/
def EvaluateDialogTrigger {Scriptable : Type} (EvaluateString : Scriptable → String → Int)
    (target : Scriptable) (trigger : Option DialogString) : TriggerRun :=
  match trigger with
  | none => { ret := false, warnings := 0, evaluated := [] }
  | some trigger => EvaluateDialogTrigger.loop (EvaluateString target) trigger.strings 0 true

/-! ## Dialog.cpp: state selection -/

/-- The loop `for (i = lo; i < lo + n; i++) if (EvaluateDialogTrigger(target,
GetState(i)->trigger)) return i;` shared by `FindFirstState` and `FindRandomState`:
`some i` when the loop body returns `i`, `none` when the loop runs to its end. -/
def Dialog.scan {Scriptable : Type} (EvaluateString : Scriptable → String → Int)
    (target : Scriptable) (d : Dialog) : Nat → Nat → Except Fault (Option Nat)
  | _, 0 => .ok none
  | i, n + 1 =>
    match d.GetState i with
    | .error f => .error f
    | .ok none => .error .nullDeref
    | .ok (some st) =>
      if (EvaluateDialogTrigger EvaluateString target st.trigger).ret then
        .ok (some i)
      else
        Dialog.scan EvaluateString target d (i + 1) n

/-- `Dialog::FindFirstState`. -/
def Dialog.FindFirstState {Scriptable : Type} (EvaluateString : Scriptable → String → Int)
    (target : Scriptable) (d : Dialog) : Except Fault Int :=
  match d.scan EvaluateString target 0 (d.initialStates.length - 0) with
  | .error f => .error f
  | .ok (some i) => .ok (i : Int)
  | .ok none => .ok (-1)

/-- What `Dialog::FindRandomState` returns, and how many times it called `rand`. -/
structure RandomPick where
  ret : Int
  draws : Nat
deriving DecidableEq, Repr

/-- `Dialog::FindRandomState`; `rnd` is the value `rand()` returns if it is called. -/
def Dialog.FindRandomState {Scriptable : Type} (EvaluateString : Scriptable → String → Int)
    (target : Scriptable) (d : Dialog) (rnd : Nat) : Except Fault RandomPick :=
  let max := d.initialStates.length
  if max = 0 then
    .ok { ret := -1, draws := 0 }
  else
    let pick := rnd % max
    match d.scan EvaluateString target pick (max - pick) with
    | .error f => .error f
    | .ok (some i) => .ok { ret := (i : Int), draws := 1 }
    | .ok none =>
      match d.scan EvaluateString target 0 (pick - 0) with
      | .error f => .error f
      | .ok (some i) => .ok { ret := (i : Int), draws := 1 }
      | .ok none => .ok { ret := -1, draws := 1 }

/-! ## Control.cpp: data model -/

/-- Modelled from the spec: the enumeration `Control::Action` is declared in `Control.h`;
the source names its members `Click` and `ValueChange`, the others are numbered. -/
inductive Action where
  | Click
  | ValueChange
  | other (n : Nat)
deriving DecidableEq, Repr

/-- Modelled from the spec: `Control::ActionKey` is declared in `Control.h`; the spec gives
the key as the tuple action-kind, modifier, button, repeat-count. -/
structure ActionKey where
  type : Action
  mod : Nat := 0
  button : Nat := 0
  count : Int := 0
deriving DecidableEq, Repr

/-- The one-argument constructor `ActionKey(action)`. -/
def ActionKey.ofAction (action : Action) : ActionKey := { type := action }

/-- A `ControlEventHandler` holds a callback object, named here by a handle, or is empty
(`none`): `if (handler)` tests for `some`. -/
abbrev ControlEventHandler := Option Nat

/-- The `Control` object, as far as `Control.cpp` reads and writes it. `window` is the handle
of the owning `Window` (`none` is `NULL`), `actions` the map from keys to handlers (the
first entry for a key is the binding), `dirty` what `MarkDirty` sets, `actionTimer` the handle
of the `Timer` object pointed to (`none` is `NULL`). The defaults are the values
`Control::Control` assigns (`range` is `MaxValueRange`; `window` is the constructor's
argument). -/
structure Control where
  InHandler : Bool := false
  VarName : String := ""
  Value : Nat := 0
  range : Nat × Nat := (0, 4294967295)
  window : Option Nat := none
  actions : List (ActionKey × ControlEventHandler) := []
  dirty : Bool := false
  actionTimer : Option Nat := none
  repeatDelay : Nat := 0
deriving DecidableEq, Repr

/-- What a call makes happen outside the widget's own fields: a callback invoked, a write to
the dictionary, a logged warning, and the calls to the timer service: `setTimer t a d` is
`core->SetTimer(h, d)` returning the timer `t`, where `h` is the
`RepeatControlEventHandler` built around the action `a`; `timerInvalidate t` is
`t->Invalidate()` and `timerSetInterval t n` is `t->SetInverval(n)`. -/
inductive Effect where
  | handler (h : Nat)
  | dictSetAt (name : String) (value : Nat)
  | logWarning
  | setTimer (timer : Nat) (action : ControlEventHandler) (delay : Nat)
  | timerInvalidate (timer : Nat)
  | timerSetInterval (timer : Nat) (interval : Nat)
deriving DecidableEq, Repr

/-- The result of a method call on a widget: the returned value, the widget afterwards, and
the outside effects of the call in order. -/
structure Outcome (α : Type) where
  ret : α
  self : Control
  trace : List Effect
deriving DecidableEq

/-- The behaviour of the callback objects: `call h c` is the widget after `handler(this)`
ran callback `h` on widget `c`. -/
abbrev Callbacks := Nat → Control → Control

/-- `std::map::find`. -/
def Control.findAction (c : Control) (key : ActionKey) : Option ControlEventHandler :=
  c.actions.lookup key

/-- `actions[key] = handler`. -/
def Control.assignAction (c : Control) (key : ActionKey) (handler : ControlEventHandler) :
    Control :=
  { c with actions := (key, handler) :: c.actions.filter (fun e => e.1 ≠ key) }

/-- `Control::SetAction(handler, type, button, mod, count)`. -/
def Control.SetAction (c : Control) (handler : ControlEventHandler) (type : Action)
    (button : Nat) (mod : Nat) (count : Int) : Control :=
  c.assignAction { type := type, mod := mod, button := button, count := count } handler

/-- `Control::SupportsAction(const ActionKey&)`: `actions.count(key)` as a `bool`. -/
def Control.SupportsAction (c : Control) (key : ActionKey) : Bool :=
  (c.actions.filter (fun e => e.1 = key)).length ≠ 0

/-- `Control::RunEventHandler`. -/
def Control.RunEventHandler (call : Callbacks) (c : Control) (handler : ControlEventHandler) :
    Outcome Int :=
  if c.InHandler then
    { ret := -1, self := c, trace := [.logWarning] }
  else
    match handler with
    | some h =>
      if c.window.isNone then
        { ret := -1, self := c, trace := [] }
      else
        let running := { c with InHandler := true }
        let returned := call h running
        { ret := 0, self := { returned with InHandler := false }, trace := [.handler h] }
    | none => { ret := 1, self := c, trace := [] }

/-- `Control::PerformAction(const ActionKey&)`. -/
def Control.PerformAction (call : Callbacks) (c : Control) (key : ActionKey) : Outcome Bool :=
  match c.findAction key with
  | some handler =>
    let r := c.RunEventHandler call handler
    { ret := r.ret == 0, self := r.self, trace := r.trace }
  | none => { ret := false, self := c, trace := [] }

/-- `Control::SetValue`. -/
def Control.SetValue (call : Callbacks) (c : Control) (val : Nat) : Outcome Unit :=
  let c1 := { c with Value := max val c.range.1 }
  let c2 := { c1 with Value := min c1.Value c1.range.2 }
  let stored : List Effect := if c2.VarName ≠ "" then [.dictSetAt c2.VarName c2.Value] else []
  let r := c2.PerformAction call (ActionKey.ofAction .ValueChange)
  { ret := (), self := { r.self with dirty := true }, trace := stored ++ r.trace }

/-- `Control::SetValueRange(ValueRange)`. -/
def Control.SetValueRange (call : Callbacks) (c : Control) (r : Nat × Nat) : Outcome Unit :=
  let c1 := { c with range := r }
  c1.SetValue call c1.Value

/-! ## Control.cpp: the action-repeat timer -/

/-- The static `Control::ActionRepeatDelay`: its initial value; no embedded function
assigns it. -/
def Control.ActionRepeatDelay : Nat := 250

/-- The fields of `MouseEvent` that `Control.cpp` reads. -/
structure MouseEvent where
  button : Nat := 0
  repeats : Int := 0
deriving DecidableEq, Repr

/-- `Control::SetActionInterval`. -/
def Control.SetActionInterval (c : Control) (interval : Nat) : Outcome Unit :=
  let c1 := { c with repeatDelay := interval }
  match c1.actionTimer with
  | some t => { ret := (), self := c1, trace := [.timerSetInterval t c1.repeatDelay] }
  | none => { ret := (), self := c1, trace := [] }

/-- `Control::StartActionTimer(action)`: the timer returned, `timer` being the `Timer` that
`core->SetTimer` hands out. -/
def Control.StartActionTimer (c : Control) (action : ControlEventHandler) (timer : Nat) :
    Outcome Nat :=
  { ret := timer, self := c, trace := [.setTimer timer action Control.ActionRepeatDelay] }

/-- The body of `RepeatControlEventHandler::operator()`, run when the timer fires:
`ctrl->SetActionInterval(ctrl->repeatDelay)` and then `action(ctrl)`; calling an empty
holder is a fault. -/
def Control.RepeatControlEventHandler (call : Callbacks) (ctrl : Control)
    (action : ControlEventHandler) : Except Fault (Outcome Unit) :=
  let r := ctrl.SetActionInterval ctrl.repeatDelay
  match action with
  | some h => .ok { ret := (), self := call h r.self, trace := r.trace ++ [.handler h] }
  | none => .error .nullDeref

/-- `Control::OnMouseUp`. -/
def Control.OnMouseUp (call : Callbacks) (c : Control) (me : MouseEvent) (mod : Nat) :
    Outcome Unit :=
  let key : ActionKey := { type := .Click, mod := mod, button := me.button, count := me.repeats }
  if c.SupportsAction key then
    let r := c.PerformAction call key
    match r.self.actionTimer with
    | some t =>
      { ret := (), self := { r.self with actionTimer := none },
        trace := r.trace ++ [.timerInvalidate t] }
    | none => { ret := (), self := r.self, trace := r.trace }
  else
    { ret := (), self := c, trace := [] }

/-- `Control::OnMouseDown`; `timer` is the `Timer` that `core->SetTimer` hands out if it is
called. `actions[key]` is read only when `key` is bound. -/
def Control.OnMouseDown (c : Control) (me : MouseEvent) (mod : Nat) (timer : Nat) :
    Outcome Unit :=
  let key : ActionKey := { type := .Click, mod := mod, button := me.button, count := me.repeats }
  if c.repeatDelay ≠ 0 && c.SupportsAction key then
    let r := c.StartActionTimer ((c.findAction key).getD none) timer
    { ret := (), self := { r.self with actionTimer := some r.ret }, trace := r.trace }
  else
    { ret := (), self := c, trace := [] }

/-! ## Window.cpp: focus -/

/-- The `Window` object, as far as the embedded functions read and write it; views are
named by handles and `drag` is the handle of the drag payload held, if any. The defaults
are the values `Window::Window` assigns. -/
structure Window where
  focusView : Option Nat := none
  trackingView : Option Nat := none
  hoverView : Option Nat := none
  Controls : List Nat := []
  drag : Option Nat := none
  TooltipView : Option Nat := none
  TooltipTime : Nat := 0
  scrollbar : Option Nat := none
deriving DecidableEq, Repr

/-- `Window::TrySetFocus`; `CanLockFocus` and `CanUnlockFocus` are the virtual queries of
`View`. -/
def Window.TrySetFocus (CanLockFocus CanUnlockFocus : Nat → Bool) (w : Window)
    (target : Option Nat) : Bool × Window :=
  if target.any (fun t => !CanLockFocus t) then
    (false, w)
  else if w.focusView.any (fun f => !CanUnlockFocus f) then
    (false, w)
  else
    (true, { w with focusView := target })

/-! ## Window.cpp: event dispatch

The views a window talks to are objects of classes outside `Window.cpp`. Their virtual
queries, the hit test and the coordinate conversions are the fields of `ViewEnv`; the event
handlers of the views, and the handling the `View` base class does for the window itself,
are calls out of the file that do not call back into the window: a dispatch function
returns them, in call order, next to the window it leaves. -/

/-- A `Point`. -/
structure Point where
  x : Int := 0
  y : Int := 0
deriving DecidableEq, Repr

/-- What `Window.cpp` asks of the view objects and of the `View` base class. `SubviewAt p`
is the hit test `SubviewAt(p, false, true)`, `isControl v` whether
`dynamic_cast<Control*>(v)` succeeds, `ControlType v` the field of that control,
`DragOperation v` the payload the view produces (`none` is the empty holder). -/
structure ViewEnv where
  SubviewAt : Point → Option Nat
  ConvertPointToScreen : Point → Point
  ConvertPointFromScreen : Nat → Point → Point
  CanLockFocus : Nat → Bool
  CanUnlockFocus : Nat → Bool
  TracksMouseDown : Nat → Bool
  DragOperation : Nat → Option Nat
  AcceptsDragOperation : Nat → Nat → Bool
  isControl : Nat → Bool
  ControlType : Nat → Nat
  ToolTipDelay : Nat

/-- A call of an event handler made by the window: on a view, or (`base...`) on the
`View` base class of the window itself. -/
inductive ViewEvent where
  | OnMouseLeave (view : Nat) (p : Point) (drag : Option Nat)
  | OnMouseEnter (view : Nat) (p : Point) (drag : Option Nat)
  | OnMouseOver (view : Nat) (p : Point)
  | OnMouseDown (view : Nat) (p : Point) (button mod : Nat)
  | OnMouseUp (view : Nat) (p : Point) (button mod : Nat)
  | CompleteDragOperation (view : Nat) (drag : Nat)
  | OnSpecialKeyPress (view : Nat) (key : Nat)
  | baseOnSpecialKeyPressOf (view : Nat) (key : Nat)
  | baseOnMouseDown (p : Point) (button mod : Nat)
  | baseOnSpecialKeyPress (key : Nat)
deriving DecidableEq, Repr

/-- `Window::DispatchMouseOver`; `now` is the value of `GetTickCount()`. -/
def Window.DispatchMouseOver (env : ViewEnv) (now : Nat) (w : Window) (p : Point) :
    Window × List ViewEvent :=
  let w0 := { w with TooltipTime := now + env.ToolTipDelay }
  let screenP := env.ConvertPointToScreen p
  let target := env.SubviewAt p
  let leaveOf (h : Nat) : ViewEvent :=
    .OnMouseLeave h (env.ConvertPointFromScreen h screenP) w0.drag
  let enterOf (t : Nat) : ViewEvent :=
    .OnMouseEnter t (env.ConvertPointFromScreen t screenP) w0.drag
  let first : List ViewEvent × Bool :=
    match target with
    | some t =>
      if target ≠ w0.hoverView then
        match w0.hoverView with
        | some h => ([leaveOf h, enterOf t], true)
        | none => ([enterOf t], false)
      else ([], false)
    | none =>
      match w0.hoverView with
      | some h => ([leaveOf h], true)
      | none => ([], false)
  let left := first.2
  let w1 :=
    if left then
      let wd :=
        match w0.trackingView with
        | some tv => if w0.drag.isNone then { w0 with drag := env.DragOperation tv } else w0
        | none => w0
      match wd.trackingView with
      | some tv =>
        if wd.trackingView = wd.hoverView && !env.TracksMouseDown tv then
          { wd with trackingView := none }
        else wd
      | none => wd
    else w0
  let over : List ViewEvent :=
    match w1.trackingView with
    | some tv => [.OnMouseOver tv (env.ConvertPointFromScreen tv screenP)]
    | none =>
      match target with
      | some t => [.OnMouseOver t (env.ConvertPointFromScreen t screenP)]
      | none => []
  ({ w1 with hoverView := target, TooltipView := target }, first.1 ++ over)

/-- `Window::DispatchMouseDown`. -/
def Window.DispatchMouseDown (env : ViewEnv) (w : Window) (p : Point) (button mod : Nat) :
    Window × List ViewEvent :=
  match env.SubviewAt p with
  | some target =>
    let w1 := (Window.TrySetFocus env.CanLockFocus env.CanUnlockFocus w (some target)).2
    let subP := env.ConvertPointFromScreen target (env.ConvertPointToScreen p)
    ({ w1 with trackingView := some target }, [.OnMouseDown target subP button mod])
  | none => (w, [.baseOnMouseDown p button mod])

/-- `Window::DispatchMouseUp`. -/
def Window.DispatchMouseUp (env : ViewEnv) (w : Window) (p : Point) (button mod : Nat) :
    Window × List ViewEvent :=
  let events : List ViewEvent :=
    match w.trackingView with
    | some tv =>
      [.OnMouseUp tv (env.ConvertPointFromScreen tv (env.ConvertPointToScreen p)) button mod]
    | none =>
      match w.drag with
      | some payload =>
        match env.SubviewAt p with
        | some target =>
          if env.AcceptsDragOperation target payload then
            [.CompleteDragOperation target payload]
          else []
        | none => []
      | none => []
  ({ w with drag := none, trackingView := none }, events)

/-! ## Window.cpp: the collection of controls and the keyboard -/

/-- `Window::SubviewAdded(view, parent)`. `self` is the handle of the window (`this`),
`Owner` gives the field `Owner` of every control, `parentIsThis` is the test
`parent == this`, and `IE_GUI_SCROLLBAR` the constant of that name. -/
def Window.SubviewAdded (env : ViewEnv) (IE_GUI_SCROLLBAR : Nat) (self : Nat) (w : Window)
    (Owner : Nat → Option Nat) (view : Nat) (parentIsThis : Bool) :
    Window × (Nat → Option Nat) :=
  if env.isControl view then
    if Owner view = some self then
      (w, Owner)
    else
      let Owner1 := Function.update Owner view (some self)
      let w1 :=
        if env.ControlType view = IE_GUI_SCROLLBAR && parentIsThis then
          { w with scrollbar := some view }
        else w
      ({ w1 with Controls := w1.Controls ++ [view] }, Owner1)
  else
    (w, Owner)

/-- `Window::SubviewRemoved(subview, parent)`. `ctrl` is `some subview` when the cast to
`Control*` succeeds and `NULL` otherwise; `std::find` and `erase` remove the first
occurrence only. -/
def Window.SubviewRemoved (env : ViewEnv) (w : Window) (Owner : Nat → Option Nat)
    (subview : Nat) : Window × (Nat → Option Nat) :=
  let ctrl : Option Nat := if env.isControl subview then some subview else none
  let removed : Window × (Nat → Option Nat) :=
    match ctrl with
    | some c => ({ w with Controls := w.Controls.erase c }, Function.update Owner c none)
    | none => (w, Owner)
  let w1 := removed.1
  if w1.focusView = ctrl then
    ({ w1 with focusView := none }, removed.2)
  else
    (w1, removed.2)

/-- `Window::SetFocused(ctrl)`. -/
def Window.SetFocused (env : ViewEnv) (w : Window) (ctrl : Option Nat) : Window :=
  match ctrl with
  | some c => (Window.TrySetFocus env.CanLockFocus env.CanUnlockFocus w (some c)).2
  | none =>
    match w.Controls with
    | first :: _ =>
      (Window.TrySetFocus env.CanLockFocus env.CanUnlockFocus w (some first)).2
    | [] => w

/-- The constants `Window::OnSpecialKeyPress` names; their values are defined in headers
outside the embedded files and are parameters here. -/
structure KeyCodes where
  GEM_TAB : Nat
  GEM_RETURN : Nat
  GEM_ESCAPE : Nat
  GEM_UP : Nat
  GEM_DOWN : Nat
  GEM_FUNCTION1 : Nat
  GEM_FUNCTION16 : Nat
  GEM_MB_ACTION : Nat
  IE_GUI_BUTTON : Nat
  IE_GUI_SCROLLBAR : Nat
deriving DecidableEq, Repr

/-- What the key handlers called by `Window::OnSpecialKeyPress` return: `onKey v key` for
`v->OnSpecialKeyPress(key)`, `baseOnKeyOf v key` for `v->View::OnSpecialKeyPress(key)`,
`baseOnKey key` for `View::OnSpecialKeyPress(key)` on the window itself. -/
structure KeyHandlers where
  onKey : Nat → Nat → Bool
  baseOnKeyOf : Nat → Nat → Bool
  baseOnKey : Nat → Bool

/-- Modelled from the spec: `Window::FocusedView` is declared in `Window.h`; it returns the
keyboard-input target `focusView`. -/
def Window.FocusedView (w : Window) : Option Nat := w.focusView

/-- The first statement of `Window::OnSpecialKeyPress`: the value given to `handled` and
the handler call made, on the hover view for the tab key and on the focus view otherwise. -/
def Window.OnSpecialKeyPress.first (K : KeyCodes) (H : KeyHandlers) (w : Window)
    (key : Nat) : Bool × List ViewEvent :=
  match (if key = K.GEM_TAB then w.hoverView else none), w.focusView with
  | some h, _ => (H.baseOnKeyOf h key, [.baseOnSpecialKeyPressOf h key])
  | none, some f => (H.onKey f key, [.OnSpecialKeyPress f key])
  | none, none => (false, [])

/-- The value of the local `ctrl` of `Window::OnSpecialKeyPress` when the `switch` is
reached. -/
def Window.OnSpecialKeyPress.ctrl (env : ViewEnv) (K : KeyCodes) (w : Window)
    (key : Nat) : Option Nat :=
  if key = K.GEM_RETURN then none
  else if key = K.GEM_ESCAPE then none
  else if key ≥ K.GEM_FUNCTION1 && key ≤ K.GEM_FUNCTION16 then none
  else w.FocusedView.filter env.isControl

/-- `Window::OnSpecialKeyPress`: the value returned and the handler calls made, in order. -/
def Window.OnSpecialKeyPress (env : ViewEnv) (K : KeyCodes) (H : KeyHandlers) (w : Window)
    (key : Nat) : Bool × List ViewEvent :=
  let first := Window.OnSpecialKeyPress.first K H w key
  match Window.OnSpecialKeyPress.ctrl env K w key with
  | some c =>
    if env.ControlType c = K.IE_GUI_SCROLLBAR then
      if key ≠ K.GEM_UP && key ≠ K.GEM_DOWN then
        (false, first.2)
      else
        (true, first.2 ++ [.OnSpecialKeyPress c key])
    else if env.ControlType c = K.IE_GUI_BUTTON then
      if key ≥ K.GEM_FUNCTION1 && key ≤ K.GEM_FUNCTION16 then
        (false, first.2 ++ [.OnMouseDown c {} K.GEM_MB_ACTION 0,
          .OnMouseUp c {} K.GEM_MB_ACTION 0])
      else if key ≠ K.GEM_RETURN && key ≠ K.GEM_ESCAPE then
        (false, first.2)
      else
        (true, first.2 ++ [.OnSpecialKeyPress c key])
    else
      (true, first.2 ++ [.OnSpecialKeyPress c key])
  | none => (H.baseOnKey key, first.2 ++ [.baseOnSpecialKeyPress key])

/-! ## DataStream.cpp: reading a resource reference

A `char` is its byte value, a natural number below 256; an `ieResRef` buffer is the list of
its nine bytes. -/

/-- The function `tolower` of the C library, in the "C" locale: the letters `A`..`Z`
(65..90) go to `a`..`z`, every other byte is kept. -/
def tolower (ch : Nat) : Nat :=
  if 65 ≤ ch ∧ ch ≤ 90 then ch + 32 else ch

/-- The loop `for (int i = 0; i < 8; i++) dest[i] = (char) tolower(dest[i]);`, from index
`i` on with `n` iterations to go. -/
def ReadResRef.lowerLoop : List Nat → Nat → Nat → List Nat
  | dest, _, 0 => dest
  | dest, i, n + 1 => ReadResRef.lowerLoop (dest.set i (tolower (dest.getD i 0))) (i + 1) n

/-- The loop `for (int i = 7; i >= 0; i--) { if (dest[i] == ' ') dest[i] = 0; else break; }`
with `i + 1` given: `0` is the exit at `i = -1`. -/
def ReadResRef.stripLoop : List Nat → Nat → List Nat
  | dest, 0 => dest
  | dest, i + 1 =>
    if dest.getD i 0 = 32 then ReadResRef.stripLoop (dest.set i 0) i else dest

/-- `DataStream::ReadResRef(ieResRef dest)`. The virtual `Read(dest, 8)` is outside the
file: `len` is the value it returns and `dest` the buffer as it leaves it; `GEM_ERROR` is
the constant of that name. The result is the value returned and the buffer afterwards. -/
def DataStream.ReadResRef (GEM_ERROR : Int) (len : Int) (dest : List Nat) : Int × List Nat :=
  if len = GEM_ERROR then
    (0, dest.set 0 0)
  else
    let lowered := ReadResRef.lowerLoop dest 0 8
    let stripped := ReadResRef.stripLoop lowered 8
    (len, stripped.set 8 0)

/-! ## Vocabulary of the properties

The definitions below are not taken from the source: they give the words of the
specification a meaning against which the embedded functions are compared. -/

/-- A result list read the way the spec reads it. Every result list splits in exactly one
way into such items: a condition outside any OR-group, an OR-group marker with all the
members it declares, or a marker that gets fewer members than it declares because the next
marker or the end of the list comes first. -/
inductive TriggerItem where
  | cond (r : Int)
  | orGroup (n : Int) (members : List Int)
  | openGroup (n : Int) (members : List Int)
deriving DecidableEq, Repr

/-- The evaluator results an item stands for. -/
def TriggerItem.results : TriggerItem → List Int
  | .cond r => [r]
  | .orGroup n members => n :: members
  | .openGroup n members => n :: members

/-- An item has the shape its constructor names: a condition and every member is not a marker
(a result `<= 1`, in particular `0` or `1`), a marker is `> 1`, a complete group has exactly
the declared number of members and an open group has fewer. -/
def TriggerItem.shaped : TriggerItem → Bool
  | .cond r => decide (r ≤ 1)
  | .orGroup n members =>
    decide (1 < n) && decide ((members.length : Int) = n) && members.all (fun m => decide (m ≤ 1))
  | .openGroup n members =>
    decide (1 < n) && decide ((members.length : Int) < n) && members.all (fun m => decide (m ≤ 1))

/-- Whether the item is an OR-group left open. -/
def TriggerItem.isOpen : TriggerItem → Bool
  | .openGroup _ _ => true
  | _ => false

/-- The spec's verdict on an item: a condition passes when it is nonzero, a complete
OR-group when one member is nonzero; an open group never yields a verdict and so never
fails. -/
def TriggerItem.passes : TriggerItem → Bool
  | .cond r => decide (r ≠ 0)
  | .orGroup _ members => members.any (fun m => decide (m ≠ 0))
  | .openGroup _ _ => true

/-- An open group inside the list is cut short by a marker: the item after it is a group,
never a plain condition (which would be one more member of the open group). -/
def TriggerItem.chained : List TriggerItem → Bool
  | [] => true
  | a :: rest =>
    (match a, rest with
      | .openGroup _ _, .cond _ :: _ => false
      | _, _ => true) && TriggerItem.chained rest

/-- A well-formed item: a non-marker condition, or a marker followed by exactly the members
it declares. -/
def TriggerItem.wellFormed (it : TriggerItem) : Bool := it.shaped && !it.isOpen

/-- A dialog built by calling `AddState` on each state of the list in turn,
starting from the empty dialog. -/
def Dialog.build (states : List DialogState) : Dialog :=
  states.foldl Dialog.AddState Dialog.new

/-- The condition the spec puts on a selected state: its trigger is present and
`EvaluateDialogTrigger` returns true for it. -/
def DialogState.TriggerHolds {Scriptable : Type} (EvaluateString : Scriptable → String → Int)
    (target : Scriptable) (st : DialogState) : Prop :=
  ∃ tr, st.trigger = some tr ∧ (EvaluateDialogTrigger EvaluateString target (some tr)).ret = true

/-- Whether the state at index `i`, if there is one, has a trigger that evaluates true. -/
def Dialog.holdsAt {Scriptable : Type} (EvaluateString : Scriptable → String → Int)
    (target : Scriptable) (d : Dialog) (i : Nat) : Bool :=
  match d.initialStates[i]? with
  | some st => (EvaluateDialogTrigger EvaluateString target st.trigger).ret
  | none => false

/-- The scan order the spec gives for `FindRandomState` started at `pick = k` on `N`
states: `k, k+1, ..., N-1, 0, 1, ..., k-1`. -/
def rotatedOrder (N k : Nat) : List Nat :=
  List.range' k (N - k) ++ List.range' 0 k

/-- The spec's result of a scan in a given order: the first index of the order whose trigger
evaluates true, or `-1`. -/
def firstMatchIn {Scriptable : Type} (EvaluateString : Scriptable → String → Int)
    (target : Scriptable) (d : Dialog) (order : List Nat) : Int :=
  match order.find? (d.holdsAt EvaluateString target) with
  | some i => (i : Int)
  | none => -1

/-- The value the spec gives for `SetValue(v)` on the range `[lo, hi]`. -/
def clampToRange (lo hi v : Nat) : Nat :=
  if v < lo then lo else if v > hi then hi else v

/-- The callback invocations a trace records, in order. -/
def handlerRuns (trace : List Effect) : List Nat :=
  trace.filterMap (fun e => match e with
    | .handler h => some h
    | _ => none)

/-- The string a `char` buffer holds: the bytes before the first NUL. -/
def cString (buf : List Nat) : List Nat :=
  buf.takeWhile (fun ch => ch ≠ 0)

/-- The bytes without their maximal run of trailing spaces. -/
def withoutTrailingSpaces (bytes : List Nat) : List Nat :=
  bytes.rdropWhile (fun ch => ch = 32)

/-- The number of evaluator calls the amended claim gives for a result list read as items:
the calls run through the items in order and end with the last result of the first item
that does not pass (a zero condition, or an OR-group whose declared members are all zero). -/
def TriggerItem.callsUntilFalse : List TriggerItem → Nat
  | [] => 0
  | it :: rest =>
    it.results.length + (if it.passes then TriggerItem.callsUntilFalse rest else 0)

/-- The number of evaluator calls as the claim words it: the calls end with the first
result `0` that is a condition outside any OR-group, and cover the whole list if there is
none; what the members of a group are plays no part. -/
def TriggerItem.callsUntilPlainZero : List TriggerItem → Nat
  | [] => 0
  | .cond r :: rest => 1 + (if r = 0 then 0 else TriggerItem.callsUntilPlainZero rest)
  | it :: rest => it.results.length + TriggerItem.callsUntilPlainZero rest

/-- The views whose `OnMouseLeave` a trace of window calls reaches, in order. -/
def leaveReceivers (trace : List ViewEvent) : List Nat :=
  trace.filterMap (fun e => match e with
    | .OnMouseLeave v _ _ => some v
    | _ => none)

/-- The views whose `OnMouseEnter` a trace of window calls reaches, in order. -/
def enterReceivers (trace : List ViewEvent) : List Nat :=
  trace.filterMap (fun e => match e with
    | .OnMouseEnter v _ _ => some v
    | _ => none)

/-- The views whose `OnMouseOver` a trace of window calls reaches, in order. -/
def overReceivers (trace : List ViewEvent) : List Nat :=
  trace.filterMap (fun e => match e with
    | .OnMouseOver v _ => some v
    | _ => none)

/-- The mouse handlers a trace of window calls reaches: the views whose `OnMouseOver` or
`OnMouseUp` was called, in order. -/
def overAndUpReceivers (trace : List ViewEvent) : List Nat :=
  trace.filterMap (fun e => match e with
    | .OnMouseOver v _ => some v
    | .OnMouseUp v _ _ _ => some v
    | _ => none)

/-- The views that received a synthesized mouse-down or mouse-up in a trace. -/
def clickReceivers (trace : List ViewEvent) : List Nat :=
  trace.filterMap (fun e => match e with
    | .OnMouseDown v _ _ _ => some v
    | .OnMouseUp v _ _ _ => some v
    | _ => none)

/-- A sequence of move events dispatched one after the other: the window after the last
one and all the handler calls made. -/
def Window.dispatchMoves (env : ViewEnv) (now : Nat) : Window → List Point →
    Window × List ViewEvent
  | w, [] => (w, [])
  | w, p :: ps =>
    let r := Window.DispatchMouseOver env now w p
    let rest := Window.dispatchMoves env now r.1 ps
    (rest.1, r.2 ++ rest.2)

/-- The invariant `SubviewAdded` and `SubviewRemoved` keep for a window with handle `self`:
`Controls` lists controls only, each once, and each with `Owner` set to the window. -/
def Window.ControlsOwned (env : ViewEnv) (self : Nat) (w : Window)
    (Owner : Nat → Option Nat) : Prop :=
  w.Controls.Nodup ∧ ∀ c ∈ w.Controls, env.isControl c = true ∧ Owner c = some self

/-- The key under which a mouse event looks for its `Click` binding: the event's modifier,
button and repeat count. -/
def clickKey (me : MouseEvent) (mod : Nat) : ActionKey :=
  { type := .Click, mod := mod, button := me.button, count := me.repeats }

/-- The timers a trace invalidates, in order. -/
def invalidatedTimers (trace : List Effect) : List Nat :=
  trace.filterMap (fun e => match e with
    | .timerInvalidate t => some t
    | _ => none)

/-! ## Callbacks and example data -/

/-- Callbacks that do nothing to the widget. -/
def idleCallbacks : Callbacks := fun _ c => c

/-- A callback that, run on a widget, calls `SetValue(val)` on that same widget. -/
def valueSettingCallbacks (val : Nat) : Callbacks :=
  fun _ c => (c.SetValue idleCallbacks val).self

/-- A callback that, run on a widget, calls `RunEventHandler(again)` on that same widget;
callbacks reached from that inner call behave as `inner` says. -/
def reentrantCallbacks (inner : Callbacks) (again : ControlEventHandler) : Callbacks :=
  fun _ c => (c.RunEventHandler inner again).self

/-- The evaluator of the examples: a string evaluates to its length. -/
def lengthEvaluator : Unit → String → Int := fun _ s => s.length

/-- A three-state dialog for the examples: no trigger, a failing trigger, a passing one. -/
def sampleDialog : Dialog :=
  Dialog.build [{ trigger := none }, { trigger := some ⟨[""]⟩ }, { trigger := some ⟨["x"]⟩ }]

/-- A widget attached to window 1 with callback 7 bound to `ValueChange`, range `[3, 10]`. -/
def sampleControl : Control :=
  { window := some 1, range := (3, 10),
    actions := [(ActionKey.ofAction .ValueChange, some 7)] }

/-- Views for the examples: view 1 covers `0 <= x < 10`, view 2 covers `10 <= x < 20`,
nothing lies elsewhere. Both are controls, view 1 a button and view 2 a scrollbar (by the
codes of `sampleKeys`). View 2 keeps tracking the mouse off-target and declines the focus;
view 3 does not release the focus. No view produces or accepts a drag payload. -/
def sampleEnv : ViewEnv :=
  { SubviewAt := fun p =>
      if 0 ≤ p.x ∧ p.x < 10 then some 1 else if 10 ≤ p.x ∧ p.x < 20 then some 2 else none
    ConvertPointToScreen := fun p => p
    ConvertPointFromScreen := fun _ p => p
    CanLockFocus := fun v => decide (v ≠ 2)
    CanUnlockFocus := fun v => decide (v ≠ 3)
    TracksMouseDown := fun v => decide (v = 2)
    DragOperation := fun _ => none
    AcceptsDragOperation := fun _ _ => false
    isControl := fun _ => true
    ControlType := fun v => if v = 1 then 0 else 7
    ToolTipDelay := 500 }

/-- Key and control-type codes for the examples. -/
def sampleKeys : KeyCodes :=
  { GEM_TAB := 136, GEM_RETURN := 134, GEM_ESCAPE := 140, GEM_UP := 131, GEM_DOWN := 132,
    GEM_FUNCTION1 := 144, GEM_FUNCTION16 := 159, GEM_MB_ACTION := 1,
    IE_GUI_BUTTON := 0, IE_GUI_SCROLLBAR := 7 }

/-- Key handlers for the examples: every handler reports the key as handled. -/
def sampleKeyHandlers : KeyHandlers :=
  { onKey := fun _ _ => true, baseOnKeyOf := fun _ _ => true, baseOnKey := fun _ => true }

/-- A widget for the timer examples: attached to window 1, repeat interval 30, callback 4
bound to a plain click (no modifier, button 0, repeat count 0), timer 5 in flight. -/
def sampleRepeater : Control :=
  { window := some 1, repeatDelay := 30, actionTimer := some 5,
    actions := [({ type := .Click }, some 4)] }

/-! ## Theorems -/

theorem EvaluateDialogTrigger.loop_zero (ev : String → Int) (l : List String) (b b' : Bool) :
    EvaluateDialogTrigger.loop ev l 0 b = EvaluateDialogTrigger.loop ev l 0 b' := by
  induction l with
  | nil => simp [EvaluateDialogTrigger.loop]
  | cons s rest ih =>
    simp only [EvaluateDialogTrigger.loop]
    simp [ih]

theorem EvaluateDialogTrigger.loop_marker (ev : String → Int) (m : String) (tail : List String)
    (c : Int) (b : Bool) (hm : 1 < ev m) :
    EvaluateDialogTrigger.loop ev (m :: tail) c b =
      (EvaluateDialogTrigger.loop ev tail (ev m) false).after m (if c ≠ 0 then 1 else 0) := by
  simp only [EvaluateDialogTrigger.loop]
  simp [hm]

theorem EvaluateDialogTrigger.bne_zero (r : Int) : (r != 0) = decide (r ≠ 0) := by
  by_cases h : r = 0 <;> simp [h]

theorem EvaluateDialogTrigger.loop_members (ev : String → Int) (rest : List String) :
    ∀ (ms : List String) (b : Bool), ms ≠ [] → (∀ s ∈ ms, ev s ≤ 1) →
    EvaluateDialogTrigger.loop ev (ms ++ rest) (ms.length : Int) b =
      if (b || ms.any (fun s => decide (ev s ≠ 0))) = true then
        { ret := (EvaluateDialogTrigger.loop ev rest 0 true).ret,
          warnings := (EvaluateDialogTrigger.loop ev rest 0 true).warnings,
          evaluated := ms ++ (EvaluateDialogTrigger.loop ev rest 0 true).evaluated }
      else { ret := false, warnings := 0, evaluated := ms } := by
  intro ms
  induction ms with
  | nil => intro b h; exact absurd rfl h
  | cons s t ih =>
    intro b _ hm
    have hs : ¬ (1 < ev s) := by
      have := hm s (List.mem_cons_self _ _); omega
    have ht : ∀ x ∈ t, ev x ≤ 1 := fun x hx => hm x (List.mem_cons_of_mem _ hx)
    have hlen : ((s :: t).length : Int) ≠ 0 := by simp; omega
    have hdec : (((s :: t).length : Int) - 1) = (t.length : Int) := by simp
    rw [List.cons_append, EvaluateDialogTrigger.loop]
    simp only [hs, hlen, hdec, if_false, if_true, ne_eq, not_false_eq_true, gt_iff_lt]
    rw [List.any_cons, EvaluateDialogTrigger.bne_zero]
    by_cases hnil : t = []
    · subst hnil
      rw [EvaluateDialogTrigger.loop_zero ev rest _ true]
      generalize decide (ev s ≠ 0) = x
      cases b <;> cases x <;> simp [TriggerRun.after]
    · have hl : ¬ ((t.length : Int) = 0) := by
        simpa using hnil
      simp only [hl, if_false, not_false_eq_true, if_true]
      rw [ih _ hnil ht]
      generalize decide (ev s ≠ 0) = x
      generalize (t.any fun s => decide (¬ ev s = 0)) = y
      cases b <;> cases x <;> cases y <;> simp [TriggerRun.after]

theorem EvaluateDialogTrigger.loop_open (ev : String → Int) (rest : List String) :
    ∀ (ms : List String) (k : Int) (b : Bool), (ms.length : Int) < k → (∀ s ∈ ms, ev s ≤ 1) →
    EvaluateDialogTrigger.loop ev (ms ++ rest) k b =
      { ret := (EvaluateDialogTrigger.loop ev rest (k - ms.length)
                  (b || ms.any (fun s => decide (ev s ≠ 0)))).ret,
        warnings := (EvaluateDialogTrigger.loop ev rest (k - ms.length)
                  (b || ms.any (fun s => decide (ev s ≠ 0)))).warnings,
        evaluated := ms ++ (EvaluateDialogTrigger.loop ev rest (k - ms.length)
                  (b || ms.any (fun s => decide (ev s ≠ 0)))).evaluated } := by
  intro ms
  induction ms with
  | nil => intro k b _ _; simp
  | cons s t ih =>
    intro k b hk hm
    have hs : ¬ (1 < ev s) := by
      have := hm s (List.mem_cons_self _ _); omega
    have ht : ∀ x ∈ t, ev x ≤ 1 := fun x hx => hm x (List.mem_cons_of_mem _ hx)
    have hlen : (t.length : Int) < k - 1 := by simp at hk; omega
    have hk0 : k ≠ 0 := by simp at hk; omega
    have hk1 : ¬ (k - 1 = 0) := by omega
    rw [List.cons_append, EvaluateDialogTrigger.loop]
    simp only [hs, hk0, hk1, if_false, if_true, ne_eq, not_false_eq_true, gt_iff_lt]
    rw [ih _ _ hlen ht]
    have e : k - 1 - (t.length : Int) = k - ((s :: t).length : Int) := by simp; omega
    rw [e, List.any_cons, EvaluateDialogTrigger.bne_zero, Bool.or_assoc]
    simp [TriggerRun.after]

theorem EvaluateDialogTrigger.loop_items (ev : String → Int) :
    ∀ (items : List TriggerItem) (strs : List String) (b : Bool),
      strs.map ev = items.flatMap TriggerItem.results →
      (∀ it ∈ items, it.shaped = true) → TriggerItem.chained items = true →
      (EvaluateDialogTrigger.loop ev strs 0 b).ret = items.all TriggerItem.passes ∧
      ((EvaluateDialogTrigger.loop ev strs 0 b).ret = true →
        (EvaluateDialogTrigger.loop ev strs 0 b).warnings = items.countP TriggerItem.isOpen) := by
  intro items
  induction items with
  | nil =>
    intro strs b h _ _
    simp at h
    subst h
    simp [EvaluateDialogTrigger.loop]
  | cons it items ih =>
    intro strs b h hsh hch
    have hsh' : ∀ x ∈ items, x.shaped = true := fun x hx => hsh x (List.mem_cons_of_mem _ hx)
    have hch' : TriggerItem.chained items = true := by
      simp only [TriggerItem.chained, Bool.and_eq_true] at hch
      exact hch.2
    have hit := hsh it (List.mem_cons_self _ _)
    rw [List.flatMap_cons] at h
    cases it with
    | cond r =>
      simp only [TriggerItem.results, List.singleton_append] at h
      obtain ⟨s, strs', rfl, hs, h'⟩ := List.map_eq_cons_iff.mp h
      have hr : r ≤ 1 := by simpa [TriggerItem.shaped] using hit
      obtain ⟨ih1, ih2⟩ := ih strs' b h' hsh' hch'
      have hm : ¬ (1 < ev s) := by omega
      have hloop : EvaluateDialogTrigger.loop ev (s :: strs') 0 b =
          if ev s = 0 then { ret := false, warnings := 0, evaluated := [s] }
          else (EvaluateDialogTrigger.loop ev strs' 0 b).after s 0 := by
        rw [EvaluateDialogTrigger.loop]; simp [hm]
      rw [hloop]
      simp only [List.all_cons, TriggerItem.passes, List.countP_cons, TriggerItem.isOpen]
      by_cases h0 : r = 0
      · have : ev s = 0 := by omega
        simp [this, h0]
      · have : ¬ ev s = 0 := by omega
        simp only [this, if_false, TriggerRun.after, ih1, ne_eq, h0, not_false_eq_true,
          decide_True, Bool.true_and, true_and]
        intro hr
        simpa using ih2 (by rw [ih1]; exact hr)
    | orGroup n ms =>
      simp only [TriggerItem.results, List.cons_append] at h
      obtain ⟨m, strs1, rfl, hm, h1⟩ := List.map_eq_cons_iff.mp h
      obtain ⟨mstr, strs', rfl, hms, h'⟩ := List.map_eq_append_iff.mp h1
      simp only [TriggerItem.shaped, Bool.and_eq_true, decide_eq_true_eq, List.all_eq_true] at hit
      obtain ⟨⟨hn, hlen⟩, hall⟩ := hit
      have hlen' : (mstr.length : Int) = ev m := by
        rw [hm, ← hlen, ← hms, List.length_map]
      have hne : mstr ≠ [] := by
        rintro rfl
        simp at hlen'
        omega
      have hle : ∀ s ∈ mstr, ev s ≤ 1 := by
        intro s hs
        exact hall (ev s) (by rw [← hms]; exact List.mem_map_of_mem ev hs)
      have hany : (mstr.any fun s => decide (ev s ≠ 0)) = ms.any (fun m => decide (m ≠ 0)) := by
        rw [← hms]
        clear hms hlen' hne hle h h1 hlen hall
        induction mstr with
        | nil => rfl
        | cons x xs ihx => simp only [List.any_cons, List.map_cons, ihx]
      obtain ⟨ih1, ih2⟩ := ih strs' true h' hsh' hch'
      rw [EvaluateDialogTrigger.loop_marker ev m _ 0 b (by omega), ← hlen',
        EvaluateDialogTrigger.loop_members ev strs' mstr false hne hle, hany]
      simp only [List.all_cons, TriggerItem.passes, List.countP_cons, TriggerItem.isOpen,
        Bool.false_or]
      generalize (ms.any fun m => decide (m ≠ 0)) = y
      cases y with
      | true =>
        simp only [if_true, TriggerRun.after, ih1, Bool.true_and, true_and]
        intro hr
        simpa using ih2 (by rw [ih1]; exact hr)
      | false => simp [TriggerRun.after]
    | openGroup n ms =>
      simp only [TriggerItem.results, List.cons_append] at h
      obtain ⟨m, strs1, rfl, hm, h1⟩ := List.map_eq_cons_iff.mp h
      obtain ⟨mstr, strs', rfl, hms, h'⟩ := List.map_eq_append_iff.mp h1
      simp only [TriggerItem.shaped, Bool.and_eq_true, decide_eq_true_eq, List.all_eq_true] at hit
      obtain ⟨⟨hn, hlen⟩, hall⟩ := hit
      have hlen' : (mstr.length : Int) < ev m := by
        rw [hm, ← hms, List.length_map] at *; exact hlen
      have hle : ∀ s ∈ mstr, ev s ≤ 1 := by
        intro s hs
        exact hall (ev s) (by rw [← hms]; exact List.mem_map_of_mem ev hs)
      have hopen : ev m - (mstr.length : Int) ≠ 0 := by omega
      obtain ⟨ih1, ih2⟩ := ih strs' b h' hsh' hch'
      rw [EvaluateDialogTrigger.loop_marker ev m _ 0 b (by omega),
        EvaluateDialogTrigger.loop_open ev strs' mstr (ev m) false hlen' hle]
      simp only [List.all_cons, TriggerItem.passes, List.countP_cons, TriggerItem.isOpen,
        Bool.true_and, TriggerRun.after, if_true]
      cases items with
      | nil =>
        simp at h'
        subst h'
        simp [EvaluateDialogTrigger.loop, hopen]
      | cons it2 items2 =>
        have hit2 := hsh' it2 (List.mem_cons_self _ _)
        rw [List.flatMap_cons] at h'
        have hhead : ∃ m2 tail, strs' = m2 :: tail ∧ 1 < ev m2 := by
          cases it2 with
          | cond r => simp [TriggerItem.chained] at hch
          | orGroup n2 ms2 =>
            simp only [TriggerItem.results, List.cons_append] at h'
            obtain ⟨m2, tail, rfl, hm2, -⟩ := List.map_eq_cons_iff.mp h'
            simp only [TriggerItem.shaped, Bool.and_eq_true, decide_eq_true_eq] at hit2
            exact ⟨m2, tail, rfl, by omega⟩
          | openGroup n2 ms2 =>
            simp only [TriggerItem.results, List.cons_append] at h'
            obtain ⟨m2, tail, rfl, hm2, -⟩ := List.map_eq_cons_iff.mp h'
            simp only [TriggerItem.shaped, Bool.and_eq_true, decide_eq_true_eq] at hit2
            exact ⟨m2, tail, rfl, by omega⟩
        obtain ⟨m2, tail, rfl, hm2⟩ := hhead
        rw [EvaluateDialogTrigger.loop_marker ev m2 tail _ _ hm2] at ih1 ih2 ⊢
        simp only [TriggerRun.after, hopen, if_true, ne_eq, not_false_eq_true] at ih1 ih2 ⊢
        refine ⟨ih1, fun hr => ?_⟩
        have := ih2 hr
        simp only [if_neg (show ¬ ((0 : Int) ≠ 0) by simp)] at this
        omega

theorem TriggerItem.chained_of_wellFormed :
    ∀ items : List TriggerItem, (∀ it ∈ items, it.wellFormed = true) →
      TriggerItem.chained items = true := by
  intro items
  induction items with
  | nil => intro _; rfl
  | cons a rest ih =>
    intro h
    have ha := h a (List.mem_cons_self _ _)
    have hr := ih (fun x hx => h x (List.mem_cons_of_mem _ hx))
    cases a <;> simp_all [TriggerItem.chained, TriggerItem.wellFormed, TriggerItem.isOpen]

theorem EvaluateDialogTrigger.ret_of_wellFormed {Scriptable : Type}
    (EvaluateString : Scriptable → String → Int) (target : Scriptable) (trigger : DialogString)
    (items : List TriggerItem) (hwf : ∀ it ∈ items, it.wellFormed = true)
    (hres : trigger.strings.map (EvaluateString target) = items.flatMap TriggerItem.results) :
    ((EvaluateDialogTrigger EvaluateString target (some trigger)).ret = true ↔
      ∀ it ∈ items, it.passes = true) := by
  have hsh : ∀ it ∈ items, it.shaped = true := by
    intro it hit
    have := hwf it hit
    simp only [TriggerItem.wellFormed, Bool.and_eq_true] at this
    exact this.1
  have := (EvaluateDialogTrigger.loop_items (EvaluateString target) items trigger.strings true
    hres hsh (TriggerItem.chained_of_wellFormed items hwf)).1
  simp only [EvaluateDialogTrigger, this, List.all_eq_true]

/-- Claim C1. When the results of a trigger's strings split into well-formed items
(conditions that are not markers, and markers `n > 1` each followed by exactly `n`
non-marker members), `Dialog::EvaluateDialogTrigger` returns true exactly when every
condition outside an OR-group is nonzero and every OR-group has a nonzero member. In
particular the results `[1,1]` give true, `[1,0]` give false and `[3,1,0,1]` give true. -/
theorem C1_EvaluateDialogTrigger_and_of_or_groups {Scriptable : Type}
    (EvaluateString : Scriptable → String → Int) (target : Scriptable) (trigger : DialogString) :
    (∀ items : List TriggerItem,
        (∀ it ∈ items, it.wellFormed = true) →
        trigger.strings.map (EvaluateString target) = items.flatMap TriggerItem.results →
        ((EvaluateDialogTrigger EvaluateString target (some trigger)).ret = true ↔
          ∀ it ∈ items, it.passes = true)) ∧
    (trigger.strings.map (EvaluateString target) = [1, 1] →
      (EvaluateDialogTrigger EvaluateString target (some trigger)).ret = true) ∧
    (trigger.strings.map (EvaluateString target) = [1, 0] →
      (EvaluateDialogTrigger EvaluateString target (some trigger)).ret = false) ∧
    (trigger.strings.map (EvaluateString target) = [3, 1, 0, 1] →
      (EvaluateDialogTrigger EvaluateString target (some trigger)).ret = true) := by
  refine ⟨fun items hwf hres =>
    EvaluateDialogTrigger.ret_of_wellFormed EvaluateString target trigger items hwf hres,
    fun h => ?_, fun h => ?_, fun h => ?_⟩
  · exact (EvaluateDialogTrigger.ret_of_wellFormed EvaluateString target trigger
      [.cond 1, .cond 1] (by decide) (by rw [h]; rfl)).mpr (by decide)
  · have := (EvaluateDialogTrigger.ret_of_wellFormed EvaluateString target trigger
      [.cond 1, .cond 0] (by decide) (by rw [h]; rfl))
    cases hret : (EvaluateDialogTrigger EvaluateString target (some trigger)).ret with
    | false => rfl
    | true => exact absurd (this.mp hret) (by decide)
  · exact (EvaluateDialogTrigger.ret_of_wellFormed EvaluateString target trigger
      [.orGroup 3 [1, 0, 1]] (by decide) (by rw [h]; rfl)).mpr (by decide)

/-- Claim C1 at the strings whose results are `[3,1,0,1,1,2,0,1]`: an OR-group of three,
a condition and an OR-group of two, all passing, so the trigger is true. -/
theorem C1_witness :
    (∀ it ∈ [TriggerItem.orGroup 3 [1, 0, 1], TriggerItem.cond 1, TriggerItem.orGroup 2 [0, 1]],
        it.wellFormed = true) ∧
    (DialogString.mk ["abc", "x", "", "y", "z", "ab", "", "w"]).strings.map (lengthEvaluator ()) =
      [TriggerItem.orGroup 3 [1, 0, 1], TriggerItem.cond 1,
        TriggerItem.orGroup 2 [0, 1]].flatMap TriggerItem.results ∧
    (EvaluateDialogTrigger lengthEvaluator ()
        (some (DialogString.mk ["abc", "x", "", "y", "z", "ab", "", "w"]))).ret = true :=
  ⟨by decide, by decide,
    ((C1_EvaluateDialogTrigger_and_of_or_groups lengthEvaluator ()
      (DialogString.mk ["abc", "x", "", "y", "z", "ab", "", "w"])).1
        [TriggerItem.orGroup 3 [1, 0, 1], TriggerItem.cond 1, TriggerItem.orGroup 2 [0, 1]]
        (by decide) (by decide)).mpr (by decide)⟩

theorem EvaluateDialogTrigger.open_at_end {Scriptable : Type}
    (EvaluateString : Scriptable → String → Int) (target : Scriptable) (trigger : DialogString)
    (before : List TriggerItem) (n : Int) (members : List Int)
    (hsh : ∀ it ∈ before ++ [TriggerItem.openGroup n members], it.shaped = true)
    (hch : TriggerItem.chained (before ++ [TriggerItem.openGroup n members]) = true)
    (hpass : ∀ it ∈ before, it.passes = true)
    (hres : trigger.strings.map (EvaluateString target) =
      (before ++ [TriggerItem.openGroup n members]).flatMap TriggerItem.results) :
    (EvaluateDialogTrigger EvaluateString target (some trigger)).ret = true ∧
    (EvaluateDialogTrigger EvaluateString target (some trigger)).warnings =
      before.countP TriggerItem.isOpen + 1 := by
  obtain ⟨h1, h2⟩ := EvaluateDialogTrigger.loop_items (EvaluateString target) _
    trigger.strings true hres hsh hch
  have hall : (before ++ [TriggerItem.openGroup n members]).all TriggerItem.passes = true := by
    rw [List.all_eq_true]
    intro x hx
    rcases List.mem_append.mp hx with hx | hx
    · exact hpass x hx
    · simp only [List.mem_singleton] at hx
      subst hx
      rfl
  rw [hall] at h1
  refine ⟨h1, ?_⟩
  have := h2 h1
  simpa [EvaluateDialogTrigger, TriggerItem.isOpen] using this

/-- Claim C2. When the results of a trigger's strings end in an OR-group that is still
open (a marker `n > 1` followed by fewer than `n` non-marker results and then the end of
the list), and every condition and every complete OR-group before that marker passes,
`Dialog::EvaluateDialogTrigger` prints the "Unfinished OR block" diagnostic (once for the
group open at the end, and once for each group an earlier marker cut short) and returns
true, whatever the members of the open group are. In particular `[3,0,0]` gives true with
one diagnostic. -/
theorem C2_EvaluateDialogTrigger_open_group_at_end {Scriptable : Type}
    (EvaluateString : Scriptable → String → Int) (target : Scriptable) (trigger : DialogString) :
    (∀ (before : List TriggerItem) (n : Int) (members : List Int),
        (∀ it ∈ before ++ [TriggerItem.openGroup n members], it.shaped = true) →
        TriggerItem.chained (before ++ [TriggerItem.openGroup n members]) = true →
        (∀ it ∈ before, it.passes = true) →
        trigger.strings.map (EvaluateString target) =
          (before ++ [TriggerItem.openGroup n members]).flatMap TriggerItem.results →
        (EvaluateDialogTrigger EvaluateString target (some trigger)).ret = true ∧
        (EvaluateDialogTrigger EvaluateString target (some trigger)).warnings =
          before.countP TriggerItem.isOpen + 1) ∧
    (trigger.strings.map (EvaluateString target) = [3, 0, 0] →
      (EvaluateDialogTrigger EvaluateString target (some trigger)).ret = true ∧
      (EvaluateDialogTrigger EvaluateString target (some trigger)).warnings = 1) := by
  refine ⟨fun before n members hsh hch hpass hres =>
    EvaluateDialogTrigger.open_at_end EvaluateString target trigger before n members
      hsh hch hpass hres, fun h => ?_⟩
  exact EvaluateDialogTrigger.open_at_end EvaluateString target trigger [] 3 [0, 0]
    (by decide) (by decide) (by decide) (by rw [h]; rfl)

/-- Claim C2 at the strings whose results are `[1,2,0,3,0,0]`: a passing condition, a group
of two cut short by the marker `3`, and the group of three left open at the end. -/
theorem C2_witness :
    (EvaluateDialogTrigger lengthEvaluator ()
        (some (DialogString.mk ["x", "ab", "", "abc", "", ""]))).ret = true ∧
    (EvaluateDialogTrigger lengthEvaluator ()
        (some (DialogString.mk ["x", "ab", "", "abc", "", ""]))).warnings = 2 :=
  (C2_EvaluateDialogTrigger_open_group_at_end lengthEvaluator ()
      (DialogString.mk ["x", "ab", "", "abc", "", ""])).1
    [TriggerItem.cond 1, TriggerItem.openGroup 2 [0]] 3 [0, 0]
    (by decide) (by decide) (by decide) (by decide)

theorem Dialog.GetState_eq (d : Dialog) (i : Nat) :
    d.GetState i = .ok d.initialStates[i]? := by
  unfold Dialog.GetState vectorAt
  by_cases h : i ≥ d.initialStates.length
  · rw [if_pos h, List.getElem?_eq_none h]
  · rw [if_neg h]
    have hlt : i < d.initialStates.length := by omega
    rw [List.getElem?_eq_getElem hlt]
    rfl

theorem DialogState.triggerHolds_iff {Scriptable : Type}
    (EvaluateString : Scriptable → String → Int) (target : Scriptable) (st : DialogState) :
    st.TriggerHolds EvaluateString target ↔
      (EvaluateDialogTrigger EvaluateString target st.trigger).ret = true := by
  unfold DialogState.TriggerHolds
  cases h : st.trigger with
  | none => simp [EvaluateDialogTrigger]
  | some tr => simp

theorem Dialog.scan_eq {Scriptable : Type} (EvaluateString : Scriptable → String → Int)
    (target : Scriptable) (d : Dialog) :
    ∀ (n i : Nat), i + n ≤ d.initialStates.length →
      d.scan EvaluateString target i n =
        .ok ((List.range' i n).find? (d.holdsAt EvaluateString target)) := by
  intro n
  induction n with
  | zero => intro i _; rfl
  | succ n ih =>
    intro i hi
    have hlt : i < d.initialStates.length := by omega
    rw [Dialog.scan, Dialog.GetState_eq, List.range'_succ, List.find?_cons]
    have hget : d.initialStates[i]? = some d.initialStates[i] := List.getElem?_eq_getElem hlt
    have hh : d.holdsAt EvaluateString target i =
        (EvaluateDialogTrigger EvaluateString target d.initialStates[i].trigger).ret := by
      simp only [Dialog.holdsAt, hget]
    rw [hget, hh]
    by_cases hr : (EvaluateDialogTrigger EvaluateString target d.initialStates[i].trigger).ret = true
    · simp only [hr, if_true]
    · have hf : (EvaluateDialogTrigger EvaluateString target d.initialStates[i].trigger).ret
          = false := by simpa using hr
      simp only [hf, if_false, Bool.false_eq_true]
      exact ih (i + 1) (by omega)

theorem Dialog.FindFirstState_eq {Scriptable : Type} (EvaluateString : Scriptable → String → Int)
    (target : Scriptable) (d : Dialog) :
    d.FindFirstState EvaluateString target =
      .ok (firstMatchIn EvaluateString target d (List.range' 0 d.initialStates.length)) := by
  unfold Dialog.FindFirstState firstMatchIn
  rw [Dialog.scan_eq EvaluateString target d _ 0 (by omega)]
  simp only [Nat.sub_zero]
  cases (List.range' 0 d.initialStates.length).find? (d.holdsAt EvaluateString target) <;> rfl

theorem Dialog.FindRandomState_eq {Scriptable : Type} (EvaluateString : Scriptable → String → Int)
    (target : Scriptable) (d : Dialog) (rnd : Nat) (hN : 0 < d.initialStates.length) :
    d.FindRandomState EvaluateString target rnd =
      .ok { ret := firstMatchIn EvaluateString target d
              (rotatedOrder d.initialStates.length (rnd % d.initialStates.length)),
            draws := 1 } := by
  have hk : rnd % d.initialStates.length < d.initialStates.length := Nat.mod_lt _ hN
  unfold Dialog.FindRandomState firstMatchIn rotatedOrder
  simp only [if_neg (Nat.pos_iff_ne_zero.mp hN), Nat.sub_zero]
  rw [Dialog.scan_eq EvaluateString target d _ _ (by omega),
    Dialog.scan_eq EvaluateString target d _ 0 (by omega), List.find?_append]
  cases (List.range' (rnd % d.initialStates.length)
      (d.initialStates.length - rnd % d.initialStates.length)).find?
      (d.holdsAt EvaluateString target) with
  | some i => rfl
  | none =>
    cases (List.range' 0 (rnd % d.initialStates.length)).find?
      (d.holdsAt EvaluateString target) <;> rfl

theorem firstMatchIn_eq_neg_one {Scriptable : Type} (EvaluateString : Scriptable → String → Int)
    (target : Scriptable) (d : Dialog) (order : List Nat) :
    firstMatchIn EvaluateString target d order = -1 ↔
      ∀ i ∈ order, d.holdsAt EvaluateString target i = false := by
  unfold firstMatchIn
  cases h : order.find? (d.holdsAt EvaluateString target) with
  | none =>
    simp only [true_iff]
    intro i hi
    have := List.find?_eq_none.mp h i hi
    simpa using this
  | some i =>
    have h1 := List.find?_some h
    have h2 := List.mem_of_find?_eq_some h
    constructor
    · intro hc
      have hc' : (i : Int) = -1 := hc
      omega
    · intro hall
      rw [hall i h2] at h1
      exact absurd h1 (by decide)

theorem mem_rotatedOrder (N k i : Nat) (hk : k < N) : i ∈ rotatedOrder N k ↔ i < N := by
  unfold rotatedOrder
  simp only [List.mem_append, List.mem_range'_1]
  omega

theorem Dialog.build_initialStates (states : List DialogState) :
    (Dialog.build states).initialStates = states := by
  have key : ∀ (l : List DialogState) (d : Dialog),
      (l.foldl Dialog.AddState d).initialStates = d.initialStates ++ l := by
    intro l
    induction l with
    | nil => intro d; simp
    | cons x xs ih => intro d; simp [List.foldl_cons, ih, Dialog.AddState]
  simpa [Dialog.build, Dialog.new] using key states Dialog.new

theorem Dialog.holdsAt_iff {Scriptable : Type} (EvaluateString : Scriptable → String → Int)
    (target : Scriptable) (d : Dialog) (i : Nat) :
    d.holdsAt EvaluateString target i = true ↔
      ∃ st, d.initialStates[i]? = some st ∧ st.TriggerHolds EvaluateString target := by
  unfold Dialog.holdsAt
  cases h : d.initialStates[i]? with
  | none => simp
  | some st => simp [DialogState.triggerHolds_iff]

/-- Claim C3. `Dialog::FindFirstState` returns without fault; it returns the least index
whose state has a trigger that is present and evaluates true, and `-1` when no state has one
(as in the empty dialog). A state whose trigger is `NULL` is never the index returned,
although `GetState` returns that state for its index. -/
theorem C3_FindFirstState_least_match {Scriptable : Type}
    (EvaluateString : Scriptable → String → Int) (target : Scriptable) (d : Dialog) :
    (∃ r : Int, d.FindFirstState EvaluateString target = .ok r ∧
      ((r = -1 ∧ ∀ (i : Nat) (st : DialogState), d.initialStates[i]? = some st →
          ¬ st.TriggerHolds EvaluateString target) ∨
       (∃ (i : Nat) (st : DialogState), r = (i : Int) ∧ d.initialStates[i]? = some st ∧
          st.TriggerHolds EvaluateString target ∧
          ∀ (j : Nat) (st' : DialogState), j < i → d.initialStates[j]? = some st' →
            ¬ st'.TriggerHolds EvaluateString target))) ∧
    (∀ (i : Nat) (st : DialogState), d.initialStates[i]? = some st → st.trigger = none →
      d.FindFirstState EvaluateString target ≠ .ok (i : Int) ∧ d.GetState i = .ok (some st)) ∧
    Dialog.new.FindFirstState EvaluateString target = .ok (-1) := by
  have hfirst := Dialog.FindFirstState_eq EvaluateString target d
  refine ⟨⟨_, hfirst, ?_⟩, ?_, rfl⟩
  · unfold firstMatchIn
    cases h : (List.range' 0 d.initialStates.length).find? (d.holdsAt EvaluateString target) with
    | none =>
      left
      refine ⟨rfl, fun i st hi hst => ?_⟩
      have hlt : i < d.initialStates.length := by
        by_contra hge
        rw [List.getElem?_eq_none (by omega)] at hi
        exact absurd hi (by simp)
      have := List.find?_range'_eq_none.mp h i (by omega) (by omega)
      have hh : d.holdsAt EvaluateString target i = true :=
        (Dialog.holdsAt_iff EvaluateString target d i).mpr ⟨st, hi, hst⟩
      rw [hh] at this
      exact absurd this (by decide)
    | some i =>
      right
      obtain ⟨hp, -, hmin⟩ := List.find?_range'_eq_some.mp h
      obtain ⟨st, hst, hholds⟩ := (Dialog.holdsAt_iff EvaluateString target d i).mp hp
      refine ⟨i, st, rfl, hst, hholds, fun j st' hj hst' hholds' => ?_⟩
      have := hmin j (by omega) hj
      have hh : d.holdsAt EvaluateString target j = true :=
        (Dialog.holdsAt_iff EvaluateString target d j).mpr ⟨st', hst', hholds'⟩
      rw [hh] at this
      exact absurd this (by decide)
  · intro i st hi hnone
    refine ⟨?_, by rw [Dialog.GetState_eq, hi]⟩
    rw [hfirst]
    intro hc
    have hc' : firstMatchIn EvaluateString target d (List.range' 0 d.initialStates.length)
        = (i : Int) := by injection hc
    unfold firstMatchIn at hc'
    cases h : (List.range' 0 d.initialStates.length).find? (d.holdsAt EvaluateString target) with
    | none =>
      rw [h] at hc'
      have : (-1 : Int) = (i : Int) := hc'
      omega
    | some k =>
      rw [h] at hc'
      have hk : (k : Int) = (i : Int) := hc'
      have hki : k = i := by omega
      subst hki
      have hp := List.find?_some h
      simp [Dialog.holdsAt, hi, hnone, EvaluateDialogTrigger] at hp

/-- Claim C3 on the sample dialog: state 0 has no trigger, so it is not the state found,
yet `GetState(0)` returns it. -/
theorem C3_witness :
    sampleDialog.FindFirstState lengthEvaluator () ≠ .ok (0 : Nat) ∧
    sampleDialog.GetState 0 = .ok (some { trigger := none }) :=
  (C3_FindFirstState_least_match lengthEvaluator () sampleDialog).2.1 0 { trigger := none }
    (by decide) rfl

/-- Claim C4. On a dialog with `N > 0` states and a draw `rnd` (so `pick = rnd % N`),
`Dialog::FindRandomState` calls `rand` once and returns the first index of the order
`pick, pick+1, ..., N-1, 0, ..., pick-1` whose trigger evaluates true, and `-1` if there is
none; it returns `-1` exactly when `FindFirstState` returns `-1`, whatever the draw; and on
the empty dialog it returns `-1` without calling `rand`. -/
theorem C4_FindRandomState_rotated_scan {Scriptable : Type}
    (EvaluateString : Scriptable → String → Int) (target : Scriptable) (d : Dialog) (rnd : Nat) :
    (0 < d.initialStates.length →
      d.FindRandomState EvaluateString target rnd =
        .ok { ret := firstMatchIn EvaluateString target d
                (rotatedOrder d.initialStates.length (rnd % d.initialStates.length)),
              draws := 1 }) ∧
    ((∃ n, d.FindRandomState EvaluateString target rnd = .ok { ret := -1, draws := n }) ↔
      d.FindFirstState EvaluateString target = .ok (-1)) ∧
    (d.initialStates.length = 0 →
      d.FindRandomState EvaluateString target rnd = .ok { ret := -1, draws := 0 }) := by
  have hempty : d.initialStates.length = 0 →
      d.FindRandomState EvaluateString target rnd = .ok { ret := -1, draws := 0 } := by
    intro h0
    simp [Dialog.FindRandomState, h0]
  refine ⟨Dialog.FindRandomState_eq EvaluateString target d rnd, ?_, hempty⟩
  rw [Dialog.FindFirstState_eq]
  by_cases hN : 0 < d.initialStates.length
  · rw [Dialog.FindRandomState_eq EvaluateString target d rnd hN]
    have hk : rnd % d.initialStates.length < d.initialStates.length := Nat.mod_lt _ hN
    have hiff : firstMatchIn EvaluateString target d
          (rotatedOrder d.initialStates.length (rnd % d.initialStates.length)) = -1 ↔
        firstMatchIn EvaluateString target d (List.range' 0 d.initialStates.length) = -1 := by
      rw [firstMatchIn_eq_neg_one, firstMatchIn_eq_neg_one]
      constructor
      · intro h i hi
        exact h i ((mem_rotatedOrder _ _ i hk).mpr (by simp at hi; omega))
      · intro h i hi
        exact h i (by
          have := (mem_rotatedOrder _ _ i hk).mp hi
          simp; omega)
    constructor
    · rintro ⟨n, hn⟩
      have : firstMatchIn EvaluateString target d
          (rotatedOrder d.initialStates.length (rnd % d.initialStates.length)) = -1 := by
        injection hn with hn
        injection hn
      rw [hiff.mp this]
    · intro h
      have h' : firstMatchIn EvaluateString target d
          (List.range' 0 d.initialStates.length) = -1 := by injection h
      exact ⟨1, by rw [hiff.mpr h']⟩
  · have h0 : d.initialStates.length = 0 := by omega
    rw [hempty h0, h0]
    constructor
    · intro _; rfl
    · intro _; exact ⟨0, rfl⟩

/-- Claim C4 on the sample dialog with the draw 7: `pick = 1`, the order is `1, 2, 0`, and
the first state of that order whose trigger holds is state 2. -/
theorem C4_witness :
    sampleDialog.FindRandomState lengthEvaluator () 7 = .ok { ret := 2, draws := 1 } ∧
    rotatedOrder 3 (7 % 3) = [1, 2, 0] :=
  ⟨by
    have h := (C4_FindRandomState_rotated_scan lengthEvaluator () sampleDialog 7).1 (by decide)
    rw [h]
    decide, by decide⟩

/-- Claim C5. On the dialog built by `AddState` from a list of `N` states, `GetState(i)`
returns the `i`-th added state when `i < N` and `NULL` when `i >= N`; the checked access
`initialStates.at` never fails. -/
theorem C5_GetState_bounds_checked (states : List DialogState) (i : Nat) :
    (∀ h : i < states.length,
      (Dialog.build states).GetState i = .ok (some (states.get ⟨i, h⟩))) ∧
    (states.length ≤ i → (Dialog.build states).GetState i = .ok none) ∧
    (Dialog.build states).GetState i ≠ .error .outOfRange := by
  rw [Dialog.GetState_eq, Dialog.build_initialStates]
  refine ⟨fun h => ?_, fun h => ?_, fun h => ?_⟩
  · rw [List.getElem?_eq_getElem h]; rfl
  · rw [List.getElem?_eq_none h]
  · cases h

/-- Claim C5 on a dialog of two states, at the indices 1 and 2. -/
theorem C5_witness :
    (Dialog.build [{ trigger := none }, { trigger := some ⟨["x"]⟩ }]).GetState 1 =
      .ok (some { trigger := some ⟨["x"]⟩ }) ∧
    (Dialog.build [{ trigger := none }, { trigger := some ⟨["x"]⟩ }]).GetState 2 = .ok none :=
  ⟨(C5_GetState_bounds_checked [{ trigger := none }, { trigger := some ⟨["x"]⟩ }] 1).1 (by decide),
   (C5_GetState_bounds_checked [{ trigger := none }, { trigger := some ⟨["x"]⟩ }] 2).2.1
     (by decide)⟩

theorem clampToRange_eq (lo hi v : Nat) (h : lo ≤ hi) :
    min (max v lo) hi = clampToRange lo hi v := by
  unfold clampToRange
  split_ifs <;> omega

theorem Control.RunEventHandler_in_handler (call : Callbacks) (c : Control)
    (handler : ControlEventHandler) (h : c.InHandler = true) :
    c.RunEventHandler call handler = { ret := -1, self := c, trace := [.logWarning] } := by
  simp [Control.RunEventHandler, h]

theorem Control.RunEventHandler_detached (call : Callbacks) (c : Control) (k : Nat)
    (h : c.InHandler = false) (hw : c.window = none) :
    c.RunEventHandler call (some k) = { ret := -1, self := c, trace := [] } := by
  simp [Control.RunEventHandler, h, hw]

theorem Control.RunEventHandler_runs (call : Callbacks) (c : Control) (k : Nat)
    (h : c.InHandler = false) (hw : c.window ≠ none) :
    c.RunEventHandler call (some k) =
      { ret := 0, self := { call k { c with InHandler := true } with InHandler := false },
        trace := [.handler k] } := by
  have : c.window.isNone = false := by
    cases hwin : c.window with
    | none => exact absurd hwin hw
    | some _ => rfl
  simp [Control.RunEventHandler, h, this]

theorem Control.RunEventHandler_empty (call : Callbacks) (c : Control)
    (h : c.InHandler = false) :
    c.RunEventHandler call none = { ret := 1, self := c, trace := [] } := by
  simp [Control.RunEventHandler, h]

theorem Control.PerformAction_frame (call : Callbacks) (c : Control) (key : ActionKey)
    (hframe : ∀ k : Nat, c.findAction key = some (some k) →
      ∀ w : Control, (call k w).Value = w.Value) :
    (c.PerformAction call key).self.Value = c.Value := by
  unfold Control.PerformAction
  cases hf : c.findAction key with
  | none => rfl
  | some handler =>
    simp only []
    unfold Control.RunEventHandler
    cases hin : c.InHandler with
    | true => simp
    | false =>
      cases handler with
      | none => simp
      | some k =>
        cases hw : c.window.isNone with
        | true => simp
        | false => simp [hframe k hf]

theorem Control.PerformAction_no_runs (call : Callbacks) (c : Control) (key : ActionKey)
    (hruns : handlerRuns (c.PerformAction call key).trace = []) :
    (c.PerformAction call key).self = c := by
  unfold Control.PerformAction at hruns ⊢
  cases hf : c.findAction key with
  | none => rfl
  | some handler =>
    rw [hf] at hruns
    simp only [] at hruns ⊢
    unfold Control.RunEventHandler at hruns ⊢
    cases hin : c.InHandler with
    | true => simp
    | false =>
      rw [hin] at hruns
      cases handler with
      | none => simp
      | some k =>
        cases hw : c.window.isNone with
        | true => simp
        | false =>
          rw [hw] at hruns
          simp [handlerRuns] at hruns

theorem Control.SetValue_eq (call : Callbacks) (c : Control) (v : Nat)
    (hrange : c.range.1 ≤ c.range.2) :
    c.SetValue call v =
      { ret := (),
        self := { ({ c with Value := clampToRange c.range.1 c.range.2 v }.PerformAction call
            (ActionKey.ofAction .ValueChange)).self with dirty := true },
        trace := (if c.VarName ≠ "" then
            [Effect.dictSetAt c.VarName (clampToRange c.range.1 c.range.2 v)] else []) ++
          ({ c with Value := clampToRange c.range.1 c.range.2 v }.PerformAction call
            (ActionKey.ofAction .ValueChange)).trace } := by
  unfold Control.SetValue
  simp only [clampToRange_eq _ _ v hrange]

/-- Claim C6 fails as stated: on a widget with range `[3, 10]` whose `ValueChange` handler
itself calls `SetValue(4)` on the widget, `SetValue(50)` leaves `Value = 4`, although
`50 > max` and the claim asks for `Value = max = 10`. -/
theorem C6_counterexample :
    sampleControl.range.1 ≤ sampleControl.range.2 ∧ 50 > sampleControl.range.2 ∧
    (sampleControl.SetValue (valueSettingCallbacks 4) 50).self.Value = 4 ∧
    (sampleControl.SetValue (valueSettingCallbacks 4) 50).self.Value ≠ sampleControl.range.2 := by
  decide

/-- Claim C6, amended. On a widget whose range satisfies `min <= max`, `SetValue(v)` writes
to `Value` the clamped value (`min` when `v < min`, `max` when `v > max`, `v` otherwise, a
value of `[min, max]`) and performs the `ValueChange` action on the widget holding that
value; after the call `Value` is still the clamped value whenever the call ran no handler,
and whenever the handler bound to `ValueChange` leaves `Value` as it finds it. -/
theorem C6_SetValue_clamps (call : Callbacks) (c : Control) (v : Nat)
    (hrange : c.range.1 ≤ c.range.2) :
    (clampToRange c.range.1 c.range.2 v =
        if v < c.range.1 then c.range.1 else if v > c.range.2 then c.range.2 else v) ∧
    (c.range.1 ≤ clampToRange c.range.1 c.range.2 v ∧
      clampToRange c.range.1 c.range.2 v ≤ c.range.2) ∧
    (c.SetValue call v).self =
      { ({ c with Value := clampToRange c.range.1 c.range.2 v }.PerformAction call
            (ActionKey.ofAction .ValueChange)).self with dirty := true } ∧
    (handlerRuns (c.SetValue call v).trace = [] →
      (c.SetValue call v).self.Value = clampToRange c.range.1 c.range.2 v) ∧
    ((∀ k : Nat, c.findAction (ActionKey.ofAction .ValueChange) = some (some k) →
        ∀ w : Control, (call k w).Value = w.Value) →
      (c.SetValue call v).self.Value = clampToRange c.range.1 c.range.2 v) := by
  rw [Control.SetValue_eq call c v hrange]
  refine ⟨rfl, ?_, rfl, ?_, ?_⟩
  · unfold clampToRange
    split_ifs <;> omega
  · intro hruns
    have hruns' : handlerRuns ({ c with Value := clampToRange c.range.1 c.range.2 v }.PerformAction
        call (ActionKey.ofAction .ValueChange)).trace = [] := by
      simp only [handlerRuns, List.filterMap_append, List.append_eq_nil] at hruns
      exact hruns.2
    simp only [Control.PerformAction_no_runs call _ _ hruns']
  · intro hframe
    simp only [Control.PerformAction_frame call
      { c with Value := clampToRange c.range.1 c.range.2 v } _ hframe]

/-- Claim C6 (amended) on the sample widget, range `[3, 10]`, with a handler that leaves
the widget alone: 50 is clamped to 10, 1 to 3, and 6 is kept. -/
theorem C6_witness :
    (sampleControl.SetValue idleCallbacks 50).self.Value = 10 ∧
    (sampleControl.SetValue idleCallbacks 1).self.Value = 3 ∧
    (sampleControl.SetValue idleCallbacks 6).self.Value = 6 :=
  ⟨(C6_SetValue_clamps idleCallbacks sampleControl 50 (by decide)).2.2.2.2 (fun _ _ _ => rfl),
   (C6_SetValue_clamps idleCallbacks sampleControl 1 (by decide)).2.2.2.2 (fun _ _ _ => rfl),
   (C6_SetValue_clamps idleCallbacks sampleControl 6 (by decide)).2.2.2.2 (fun _ _ _ => rfl)⟩

/-- Claim C7 fails as stated: a widget with callback 7 bound to `ValueChange` but attached
to no `Window` runs no handler in `SetValue(5)`. -/
theorem C7_counterexample :
    ({ sampleControl with window := none }).findAction (ActionKey.ofAction .ValueChange)
      = some (some 7) ∧
    handlerRuns (({ sampleControl with window := none }).SetValue idleCallbacks 5).trace = [] := by
  decide

theorem Control.RunEventHandler_runs_iff (call : Callbacks) (c : Control) (k : Nat) :
    handlerRuns (c.RunEventHandler call (some k)).trace =
      if c.InHandler = false ∧ c.window ≠ none then [k] else [] := by
  unfold Control.RunEventHandler
  cases hin : c.InHandler <;> cases hw : c.window <;> simp [handlerRuns]

theorem handlerRuns_dictSetAt_append (name : String) (x : Nat) (p : Prop) [Decidable p]
    (t : List Effect) :
    handlerRuns ((if p then [Effect.dictSetAt name x] else []) ++ t) = handlerRuns t := by
  by_cases hp : p <;> simp [hp, handlerRuns]

/-- Claim C7, amended. On a widget with a non-empty handler bound to `ValueChange`,
`SetValue` invokes that handler exactly once when the widget is attached to a `Window` and
no handler of it is running; when the widget is detached, or the call is made while a
handler of the widget is running, `SetValue` invokes no handler. -/
theorem C7_SetValue_fires_ValueChange_once (call : Callbacks) (c : Control) (v : Nat) (k : Nat)
    (hbound : c.findAction (ActionKey.ofAction .ValueChange) = some (some k)) :
    (c.window ≠ none → c.InHandler = false →
      handlerRuns (c.SetValue call v).trace = [k]) ∧
    (c.window = none ∨ c.InHandler = true →
      handlerRuns (c.SetValue call v).trace = []) := by
  have hfind : ∀ x : Nat, ({ c with Value := x } : Control).findAction
      (ActionKey.ofAction .ValueChange) = some (some k) := fun _ => hbound
  have hruns : handlerRuns (c.SetValue call v).trace =
      if c.InHandler = false ∧ c.window ≠ none then [k] else [] := by
    simp only [Control.SetValue, Control.PerformAction, hfind]
    rw [handlerRuns_dictSetAt_append, Control.RunEventHandler_runs_iff]
  rw [hruns]
  constructor
  · intro hw hin
    rw [if_pos ⟨hin, hw⟩]
  · intro h
    rw [if_neg]
    rintro ⟨hin, hw⟩
    rcases h with h | h
    · exact hw h
    · rw [hin] at h; exact absurd h (by decide)

/-- Claim C7 (amended) on the sample widget: `SetValue(5)` runs callback 7 once. -/
theorem C7_witness :
    handlerRuns (sampleControl.SetValue idleCallbacks 5).trace = [7] :=
  (C7_SetValue_fires_ValueChange_once idleCallbacks sampleControl 5 7 (by decide)).1
    (by decide) (by decide)

/-- Claim C8. Let a widget be attached to a `Window` with no handler running. While a
handler runs, `InHandler` is set, and every `RunEventHandler` call made on a widget with
`InHandler` set returns `-1`, invokes no handler and leaves the widget as it is. So for a
handler `k` whose action is to call `RunEventHandler(again)` on the same widget, the outer
`RunEventHandler(k)` invokes `k` once, returns `0` and leaves the widget unchanged with
`InHandler` false; and whatever the handler does, the outer call returns `0` with
`InHandler` false. -/
theorem C8_RunEventHandler_rejects_reentry (inner : Callbacks) (c : Control) (k : Nat)
    (again : ControlEventHandler) (hin : c.InHandler = false) (hw : c.window ≠ none) :
    (∀ w : Control, w.InHandler = true →
      (w.RunEventHandler inner again).ret = -1 ∧
      (w.RunEventHandler inner again).self = w ∧
      handlerRuns (w.RunEventHandler inner again).trace = []) ∧
    c.RunEventHandler (reentrantCallbacks inner again) (some k) =
      { ret := 0, self := c, trace := [.handler k] } ∧
    (∀ call : Callbacks,
      (c.RunEventHandler call (some k)).ret = 0 ∧
      (c.RunEventHandler call (some k)).self =
        { call k { c with InHandler := true } with InHandler := false } ∧
      (c.RunEventHandler call (some k)).self.InHandler = false) := by
  have hinner := Control.RunEventHandler_in_handler inner { c with InHandler := true } again rfl
  refine ⟨fun w hwin => ?_, ?_, fun call => ?_⟩
  · rw [Control.RunEventHandler_in_handler inner w again hwin]
    exact ⟨rfl, rfl, rfl⟩
  · rw [Control.RunEventHandler_runs _ c k hin hw]
    simp only [reentrantCallbacks, hinner]
    cases c
    simp only [Outcome.mk.injEq, Control.mk.injEq, true_and, and_true] at hin ⊢
    exact hin.symm
  · rw [Control.RunEventHandler_runs call c k hin hw]
    exact ⟨rfl, rfl, rfl⟩

/-- Claim C8 on the sample widget, with callback 7 calling `RunEventHandler` on itself. -/
theorem C8_witness :
    sampleControl.RunEventHandler (reentrantCallbacks idleCallbacks (some 7)) (some 7) =
      { ret := 0, self := sampleControl, trace := [.handler 7] } :=
  (C8_RunEventHandler_rejects_reentry idleCallbacks sampleControl 7 (some 7)
    (by decide) (by decide)).2.1

theorem Control.supportsAction_iff_mem (c : Control) (key : ActionKey) :
    c.SupportsAction key = true ↔ ∃ h, (key, h) ∈ c.actions := by
  unfold Control.SupportsAction
  rw [decide_eq_true_iff, Ne, List.length_eq_zero, List.filter_eq_nil_iff]
  constructor
  · intro hall
    by_contra hno
    apply hall
    rintro ⟨k, h⟩ hmem
    intro hk
    have hk' : k = key := by simpa using hk
    subst hk'
    exact hno ⟨h, hmem⟩
  · rintro ⟨h, hmem⟩ hall
    exact hall (key, h) hmem (by simp)

theorem Control.findAction_isSome_iff_mem (c : Control) (key : ActionKey) :
    (∃ h, c.findAction key = some h) ↔ ∃ h, (key, h) ∈ c.actions := by
  unfold Control.findAction
  generalize c.actions = l
  induction l with
  | nil => simp
  | cons e es ih =>
    obtain ⟨k, h⟩ := e
    by_cases hk : key = k
    · subst hk
      simp [List.lookup]
    · have hne : (key == k) = false := by simpa using hk
      simp only [List.lookup, hne, List.mem_cons, Prod.mk.injEq, hk, false_and, false_or]
      exact ih

/-- Claim C9. `SupportsAction(key)` is true exactly when the action map has a binding under
`key`. `PerformAction(key)` returns true exactly when the handler bound under `key` is
non-empty, the widget is attached to a `Window` and no handler of it is running, which is
exactly when the call ran that handler (and it ran it once); when it returns false no
handler was run, and with no binding under `key` it returns false and leaves the widget
as it is. -/
theorem C9_SupportsAction_PerformAction (call : Callbacks) (c : Control) (key : ActionKey) :
    (c.SupportsAction key = true ↔ ∃ h, (key, h) ∈ c.actions) ∧
    (c.SupportsAction key = true ↔ ∃ h, c.findAction key = some h) ∧
    ((c.PerformAction call key).ret = true ↔
      ∃ k, c.findAction key = some (some k) ∧ c.window ≠ none ∧ c.InHandler = false) ∧
    ((c.PerformAction call key).ret = true ↔
      ∃ k, c.findAction key = some (some k) ∧
        handlerRuns (c.PerformAction call key).trace = [k]) ∧
    ((c.PerformAction call key).ret = false →
      handlerRuns (c.PerformAction call key).trace = []) ∧
    (c.SupportsAction key = false →
      (c.PerformAction call key).ret = false ∧ (c.PerformAction call key).self = c) := by
  have hsup := Control.supportsAction_iff_mem c key
  have hfind := Control.findAction_isSome_iff_mem c key
  refine ⟨hsup, hsup.trans hfind.symm, ?_, ?_, ?_, ?_⟩
  · unfold Control.PerformAction Control.RunEventHandler
    cases hf : c.findAction key with
    | none => simp
    | some handler =>
      cases handler with
      | none => cases hin : c.InHandler <;> simp
      | some k => cases hin : c.InHandler <;> cases hw : c.window <;> simp
  · unfold Control.PerformAction Control.RunEventHandler
    cases hf : c.findAction key with
    | none => simp
    | some handler =>
      cases handler with
      | none => cases hin : c.InHandler <;> simp
      | some k => cases hin : c.InHandler <;> cases hw : c.window <;> simp [handlerRuns]
  · unfold Control.PerformAction Control.RunEventHandler
    cases hf : c.findAction key with
    | none => simp [handlerRuns]
    | some handler =>
      cases handler with
      | none => cases hin : c.InHandler <;> simp [handlerRuns]
      | some k => cases hin : c.InHandler <;> cases hw : c.window <;> simp [handlerRuns]
  · intro hno
    have hnone : c.findAction key = none := by
      cases hf : c.findAction key with
      | none => rfl
      | some h =>
        have := (hsup.trans hfind.symm).mpr ⟨h, hf⟩
        rw [hno] at this
        exact absurd this (by decide)
    simp [Control.PerformAction, hnone]

/-- Claim C9 on the sample widget: the bound, non-empty handler of an attached, idle widget
is run, so `PerformAction` returns true. -/
theorem C9_witness :
    (sampleControl.PerformAction idleCallbacks (ActionKey.ofAction .ValueChange)).ret = true :=
  (C9_SupportsAction_PerformAction idleCallbacks sampleControl
    (ActionKey.ofAction .ValueChange)).2.2.1.mpr ⟨7, by decide, by decide, by decide⟩

/-- Claim C10. `Window::TrySetFocus(target)` returns false exactly when `target` is not
`NULL` and declines to accept the focus, or the current `focusView` is not `NULL` and
declines to release it; when it returns false the window is unchanged, and when it returns
true the window differs only in `focusView`, which is `target` (possibly `NULL`). -/
theorem C10_TrySetFocus (CanLockFocus CanUnlockFocus : Nat → Bool) (w : Window)
    (target : Option Nat) :
    ((Window.TrySetFocus CanLockFocus CanUnlockFocus w target).1 = false ↔
      ((∃ t, target = some t ∧ CanLockFocus t = false) ∨
        (∃ f, w.focusView = some f ∧ CanUnlockFocus f = false))) ∧
    ((Window.TrySetFocus CanLockFocus CanUnlockFocus w target).1 = false →
      (Window.TrySetFocus CanLockFocus CanUnlockFocus w target).2 = w) ∧
    ((Window.TrySetFocus CanLockFocus CanUnlockFocus w target).1 = true →
      (Window.TrySetFocus CanLockFocus CanUnlockFocus w target).2 =
        { w with focusView := target }) := by
  unfold Window.TrySetFocus
  cases target with
  | none =>
    cases hf : w.focusView with
    | none => simp
    | some f => cases hu : CanUnlockFocus f <;> simp [hu]
  | some t =>
    cases hl : CanLockFocus t with
    | false => simp [hl]
    | true =>
      cases hf : w.focusView with
      | none => simp [hl]
      | some f => cases hu : CanUnlockFocus f <;> simp [hl, hu]

/-- Claim C10 on a window whose focus holder, view 1, declines to release the focus: the
request to focus view 2 returns false. -/
theorem C10_witness :
    (Window.TrySetFocus (fun _ => true) (fun v => decide (v ≠ 1)) { focusView := some 1 }
      (some 2)).1 = false :=
  (C10_TrySetFocus (fun _ => true) (fun v => decide (v ≠ 1)) { focusView := some 1 }
    (some 2)).1.mpr (Or.inr ⟨1, rfl, by decide⟩)

theorem Window.TrySetFocus_refused (CanLockFocus CanUnlockFocus : Nat → Bool) (w : Window)
    (target : Option Nat)
    (h : (Window.TrySetFocus CanLockFocus CanUnlockFocus w target).1 = false) :
    (Window.TrySetFocus CanLockFocus CanUnlockFocus w target).2 = w := by
  unfold Window.TrySetFocus at h ⊢
  split_ifs at h ⊢ <;> rfl

/-- Claim C11. When the hit test of `Window::DispatchMouseDown` finds a target, the call
makes one handler call, the down-event forwarded to the target, and afterwards
`trackingView` is the target, whether `TrySetFocus` accepted the focus change or refused
it (the window is the one `TrySetFocus` leaves, with `trackingView` set). When the hit
test finds nothing, the window is unchanged, `focusView` and `trackingView` included, and
the one call made is the `View` base class handling of the down-event for the window. -/
theorem C11_DispatchMouseDown (env : ViewEnv) (w : Window) (p : Point) (button mod : Nat) :
    (∀ target, env.SubviewAt p = some target →
      (Window.DispatchMouseDown env w p button mod).2 =
        [.OnMouseDown target (env.ConvertPointFromScreen target (env.ConvertPointToScreen p))
          button mod] ∧
      (Window.DispatchMouseDown env w p button mod).1.trackingView = some target ∧
      (Window.DispatchMouseDown env w p button mod).1 =
        { (Window.TrySetFocus env.CanLockFocus env.CanUnlockFocus w (some target)).2 with
          trackingView := some target } ∧
      ((Window.TrySetFocus env.CanLockFocus env.CanUnlockFocus w (some target)).1 = false →
        (Window.DispatchMouseDown env w p button mod).1.focusView = w.focusView)) ∧
    (env.SubviewAt p = none →
      (Window.DispatchMouseDown env w p button mod).1 = w ∧
      (Window.DispatchMouseDown env w p button mod).2 = [.baseOnMouseDown p button mod]) := by
  constructor
  · intro target ht
    have e : Window.DispatchMouseDown env w p button mod =
        ({ (Window.TrySetFocus env.CanLockFocus env.CanUnlockFocus w (some target)).2 with
            trackingView := some target },
          [.OnMouseDown target (env.ConvertPointFromScreen target (env.ConvertPointToScreen p))
            button mod]) := by
      simp only [Window.DispatchMouseDown, ht]
    rw [e]
    refine ⟨rfl, rfl, rfl, fun hrefused => ?_⟩
    have := Window.TrySetFocus_refused env.CanLockFocus env.CanUnlockFocus w (some target)
      hrefused
    simp only [this]
  · intro hnone
    have e : Window.DispatchMouseDown env w p button mod = (w, [.baseOnMouseDown p button mod]) := by
      simp only [Window.DispatchMouseDown, hnone]
    rw [e]
    exact ⟨rfl, rfl⟩

/-- Claim C11 in the example views: a down-event at `x = 15` hits view 2, which declines
the focus; it is tracked all the same. -/
theorem C11_witness :
    (Window.DispatchMouseDown sampleEnv {} { x := 15 } 1 0).1.trackingView = some 2 ∧
    (Window.DispatchMouseDown sampleEnv {} { x := 15 } 1 0).1.focusView = none :=
  ⟨((C11_DispatchMouseDown sampleEnv {} { x := 15 } 1 0).1 2 (by decide)).2.1,
   ((C11_DispatchMouseDown sampleEnv {} { x := 15 } 1 0).1 2 (by decide)).2.2.2 (by decide)⟩

/-- Claim C12. After `Window::DispatchMouseUp` the window holds no drag payload and no
`trackingView`; and when it held neither before the call, the call makes no handler call
and leaves the whole window, `focusView` and `hoverView` included, as it was. -/
theorem C12_DispatchMouseUp (env : ViewEnv) (w : Window) (p : Point) (button mod : Nat) :
    ((Window.DispatchMouseUp env w p button mod).1.drag = none ∧
      (Window.DispatchMouseUp env w p button mod).1.trackingView = none) ∧
    (w.drag = none → w.trackingView = none →
      (Window.DispatchMouseUp env w p button mod).2 = [] ∧
      (Window.DispatchMouseUp env w p button mod).1 = w) := by
  refine ⟨⟨rfl, rfl⟩, fun hd ht => ?_⟩
  simp only [Window.DispatchMouseUp, hd, ht, true_and]
  cases w
  simp_all

/-- Claim C12 in the example views, on a window with a focus and a hover view but no
tracking view and no drag payload. -/
theorem C12_witness :
    (Window.DispatchMouseUp sampleEnv { focusView := some 1, hoverView := some 2 }
      { x := 5 } 1 0) = ({ focusView := some 1, hoverView := some 2 }, []) := by
  have h := (C12_DispatchMouseUp sampleEnv { focusView := some 1, hoverView := some 2 }
    { x := 5 } 1 0).2 rfl rfl
  exact Prod.ext h.2 h.1

theorem Window.DispatchMouseOver_tracking (env : ViewEnv) (now : Nat) (w : Window) (q : Point)
    (v : Nat) (htrack : w.trackingView = some v)
    (hkeep : env.TracksMouseDown v = true ∨ env.SubviewAt q = some v) :
    (Window.DispatchMouseOver env now w q).1.trackingView = some v ∧
    overAndUpReceivers (Window.DispatchMouseOver env now w q).2 = [v] := by
  unfold Window.DispatchMouseOver
  rcases hkeep with hk | hk
  · cases ht : env.SubviewAt q <;> cases hh : w.hoverView <;> cases hd : w.drag <;>
      simp [htrack, hk, overAndUpReceivers] <;> split_ifs <;> simp [htrack, overAndUpReceivers]
  · cases hh : w.hoverView with
    | none => simp [htrack, hk, overAndUpReceivers]
    | some h =>
      by_cases hv : h = v
      · subst hv
        simp [htrack, hk, overAndUpReceivers]
      · have hne : ¬ (v = h) := fun e => hv e.symm
        cases hd : w.drag <;> simp [htrack, hk, hv, hne, overAndUpReceivers]

theorem Window.DispatchMouseOver_tracking_lost (env : ViewEnv) (now : Nat) (w : Window)
    (q : Point) (v : Nat) (htrack : w.trackingView = some v) (hhover : w.hoverView = some v)
    (hno : env.TracksMouseDown v = false) (hleft : env.SubviewAt q ≠ some v) :
    (Window.DispatchMouseOver env now w q).1.trackingView = none ∧
    overAndUpReceivers (Window.DispatchMouseOver env now w q).2 = (env.SubviewAt q).toList := by
  unfold Window.DispatchMouseOver
  cases ht : env.SubviewAt q with
  | none => cases hd : w.drag <;> simp [htrack, hhover, hno, overAndUpReceivers]
  | some t =>
    have hne : ¬ (t = v) := fun e => hleft (by rw [ht, e])
    cases hd : w.drag <;> simp [htrack, hhover, hno, hne, overAndUpReceivers]

theorem Window.dispatchMoves_tracking (env : ViewEnv) (now : Nat) (v : Nat) :
    ∀ (moves : List Point) (w : Window), w.trackingView = some v →
      (∀ q ∈ moves, env.TracksMouseDown v = true ∨ env.SubviewAt q = some v) →
      (Window.dispatchMoves env now w moves).1.trackingView = some v ∧
      overAndUpReceivers (Window.dispatchMoves env now w moves).2 =
        List.replicate moves.length v := by
  intro moves
  induction moves with
  | nil => intro w htrack _; exact ⟨htrack, rfl⟩
  | cons q qs ih =>
    intro w htrack hkeep
    obtain ⟨h1, h2⟩ := Window.DispatchMouseOver_tracking env now w q v htrack
      (hkeep q (List.mem_cons_self _ _))
    obtain ⟨h3, h4⟩ := ih (Window.DispatchMouseOver env now w q).1 h1
      (fun x hx => hkeep x (List.mem_cons_of_mem _ hx))
    refine ⟨h3, ?_⟩
    simp only [Window.dispatchMoves, overAndUpReceivers, List.filterMap_append,
      List.length_cons, List.replicate_succ] at h2 h4 ⊢
    rw [h2, h4]
    rfl

/-- Claim C13 fails as stated. In the example views, the pointer is moved over view 1 (which
does not declare `TracksMouseDown`), a mouse-down hits view 1, and the pointer is moved on
to view 2: the move event goes to view 2, not to view 1, and the up event that follows is
delivered to no view. -/
theorem C13_counterexample :
    sampleEnv.SubviewAt { x := 5 } = some 1 ∧
    overAndUpReceivers
      (Window.DispatchMouseOver sampleEnv 0
        (Window.DispatchMouseDown sampleEnv
          (Window.DispatchMouseOver sampleEnv 0 {} { x := 5 }).1 { x := 5 } 1 0).1
        { x := 15 }).2 = [2] ∧
    overAndUpReceivers
      (Window.DispatchMouseUp sampleEnv
        (Window.DispatchMouseOver sampleEnv 0
          (Window.DispatchMouseDown sampleEnv
            (Window.DispatchMouseOver sampleEnv 0 {} { x := 5 }).1 { x := 5 } 1 0).1
          { x := 15 }).1 { x := 15 } 1 0).2 = [] := by
  decide

/-- Claim C13, amended. After a mouse-down that hit view `v`, every move event of a sequence
in which each move either has `v` as its hit-test target or finds `v` declaring
`TracksMouseDown`, and the up event after them, is delivered to `v` and to no other view's
mouse-over or mouse-up handler. A move that leaves `v` while `v` is the hover view and does
not declare `TracksMouseDown` ends the tracking: that move goes to its hit-test target (to
no view if there is none). -/
theorem C13_tracking_view_receives_moves_and_up (env : ViewEnv) (now : Nat) (w : Window)
    (p : Point) (button mod : Nat) (v : Nat) (moves : List Point) (up : Point)
    (hhit : env.SubviewAt p = some v)
    (hkeep : ∀ q ∈ moves, env.TracksMouseDown v = true ∨ env.SubviewAt q = some v) :
    overAndUpReceivers
      (Window.dispatchMoves env now (Window.DispatchMouseDown env w p button mod).1 moves).2 =
        List.replicate moves.length v ∧
    overAndUpReceivers
      (Window.DispatchMouseUp env
        (Window.dispatchMoves env now (Window.DispatchMouseDown env w p button mod).1 moves).1
        up button mod).2 = [v] ∧
    (∀ (w' : Window) (q : Point), w'.trackingView = some v → w'.hoverView = some v →
      env.TracksMouseDown v = false → env.SubviewAt q ≠ some v →
      (Window.DispatchMouseOver env now w' q).1.trackingView = none ∧
      overAndUpReceivers (Window.DispatchMouseOver env now w' q).2 =
        (env.SubviewAt q).toList) := by
  have hdown : (Window.DispatchMouseDown env w p button mod).1.trackingView = some v := by
    simp only [Window.DispatchMouseDown, hhit]
  obtain ⟨h1, h2⟩ := Window.dispatchMoves_tracking env now v moves _ hdown hkeep
  refine ⟨h2, ?_, fun w' q ht hh hno hleft =>
    Window.DispatchMouseOver_tracking_lost env now w' q v ht hh hno hleft⟩
  simp only [Window.DispatchMouseUp, h1, overAndUpReceivers, List.filterMap_cons,
    List.filterMap_nil]

/-- Claim C13 (amended) in the example views: view 2 declares `TracksMouseDown`; after a
mouse-down on it, moves over view 1 and over no view, and the up event, all go to view 2. -/
theorem C13_witness :
    overAndUpReceivers
      (Window.dispatchMoves sampleEnv 0 (Window.DispatchMouseDown sampleEnv {} { x := 15 } 1 0).1
        [{ x := 5 }, { x := 30 }]).2 = [2, 2] ∧
    overAndUpReceivers
      (Window.DispatchMouseUp sampleEnv
        (Window.dispatchMoves sampleEnv 0
          (Window.DispatchMouseDown sampleEnv {} { x := 15 } 1 0).1
          [{ x := 5 }, { x := 30 }]).1 { x := 30 } 1 0).2 = [2] :=
  ⟨(C13_tracking_view_receives_moves_and_up sampleEnv 0 {} { x := 15 } 1 0 2
      [{ x := 5 }, { x := 30 }] { x := 30 } (by decide) (by decide)).1,
   (C13_tracking_view_receives_moves_and_up sampleEnv 0 {} { x := 15 } 1 0 2
      [{ x := 5 }, { x := 30 }] { x := 30 } (by decide) (by decide)).2.1⟩

theorem Window.ControlsOwned_initial (env : ViewEnv) (self : Nat) (Owner : Nat → Option Nat) :
    Window.ControlsOwned env self {} Owner := by
  refine ⟨List.nodup_nil, fun c hc => ?_⟩
  cases hc

theorem Window.SubviewAdded_keeps_ControlsOwned (env : ViewEnv) (scrollbarType : Nat)
    (self : Nat) (w : Window) (Owner : Nat → Option Nat) (view : Nat) (parentIsThis : Bool)
    (hinv : Window.ControlsOwned env self w Owner) :
    Window.ControlsOwned env self
      (Window.SubviewAdded env scrollbarType self w Owner view parentIsThis).1
      (Window.SubviewAdded env scrollbarType self w Owner view parentIsThis).2 := by
  unfold Window.SubviewAdded
  obtain ⟨hnd, hall⟩ := hinv
  by_cases hctl : env.isControl view = true
  · by_cases hown : Owner view = some self
    · simp only [hctl, hown, if_true]
      exact ⟨hnd, hall⟩
    · have hnot : view ∉ w.Controls := fun hmem => hown (hall view hmem).2
      have hC : ∀ (w1 : Window), w1.Controls = w.Controls →
          Window.ControlsOwned env self { w1 with Controls := w1.Controls ++ [view] }
            (Function.update Owner view (some self)) := by
        intro w1 h1
        constructor
        · simp only [h1]
          exact List.Nodup.append hnd (List.nodup_singleton _) (by
            intro x hx hx'
            simp only [List.mem_singleton] at hx'
            subst hx'
            exact hnot hx)
        · intro c hc
          simp only [h1, List.mem_append, List.mem_singleton] at hc
          rcases hc with hc | hc
          · have hne : c ≠ view := fun e => hnot (e ▸ hc)
            exact ⟨(hall c hc).1, by rw [Function.update_noteq hne]; exact (hall c hc).2⟩
          · subst hc
            exact ⟨hctl, by rw [Function.update_same]⟩
      simp only [hctl, hown, if_true, if_false]
      split_ifs
      · exact hC _ rfl
      · exact hC _ rfl
  · simp only [hctl, if_false, Bool.false_eq_true]
    exact ⟨hnd, hall⟩

/-- Claim C14. On a window whose `Controls` collection is as `SubviewAdded` builds it (no
control twice, every entry a control owned by the window), for every control `c` of the
collection `Window::SubviewRemoved(c)` leaves the collection without `c` and otherwise as
it was (same entries, same order), clears the `Owner` of `c` and of no other control, sets
`focusView` to `NULL` if it was `c` and leaves it otherwise; the collection is again as
`SubviewAdded` builds it. -/
theorem C14_SubviewRemoved (env : ViewEnv) (self : Nat) (w : Window)
    (Owner : Nat → Option Nat) (c : Nat)
    (hinv : Window.ControlsOwned env self w Owner) (hc : c ∈ w.Controls) :
    c ∉ (Window.SubviewRemoved env w Owner c).1.Controls ∧
    (Window.SubviewRemoved env w Owner c).1.Controls = w.Controls.filter (fun d => d ≠ c) ∧
    (Window.SubviewRemoved env w Owner c).2 c = none ∧
    (∀ d, d ≠ c → (Window.SubviewRemoved env w Owner c).2 d = Owner d) ∧
    (Window.SubviewRemoved env w Owner c).1.focusView =
      (if w.focusView = some c then none else w.focusView) ∧
    Window.ControlsOwned env self (Window.SubviewRemoved env w Owner c).1
      (Window.SubviewRemoved env w Owner c).2 := by
  obtain ⟨hnd, hall⟩ := hinv
  have hctl : env.isControl c = true := (hall c hc).1
  have hC : (Window.SubviewRemoved env w Owner c).1.Controls = w.Controls.erase c := by
    unfold Window.SubviewRemoved
    simp only [hctl, if_true]
    split_ifs <;> rfl
  have hO : (Window.SubviewRemoved env w Owner c).2 = Function.update Owner c none := by
    unfold Window.SubviewRemoved
    simp only [hctl, if_true]
    split_ifs <;> rfl
  have hF : (Window.SubviewRemoved env w Owner c).1.focusView =
      (if w.focusView = some c then none else w.focusView) := by
    unfold Window.SubviewRemoved
    simp only [hctl, if_true]
    split_ifs <;> rfl
  unfold Window.ControlsOwned
  rw [hC, hO]
  refine ⟨?_, ?_, ?_, ?_, hF, ?_, ?_⟩
  · exact fun hmem => ((List.Nodup.mem_erase_iff hnd).mp hmem).1 rfl
  · rw [List.Nodup.erase_eq_filter hnd c]
    apply List.filter_congr
    intro d _
    by_cases hd : d = c <;> simp [hd]
  · exact Function.update_same _ _ _
  · intro d hd
    exact Function.update_noteq hd _ _
  · exact List.Nodup.erase c hnd
  · intro d hd
    have hd' := (List.Nodup.mem_erase_iff hnd).mp hd
    exact ⟨(hall d hd'.2).1, by rw [Function.update_noteq hd'.1]; exact (hall d hd'.2).2⟩

/-- Claim C14 on a window with handle 9 holding the controls 1, 2, 3 with the focus on 2:
after removing 2 the collection is 1, 3 and nothing is focused. -/
theorem C14_witness :
    (Window.SubviewRemoved sampleEnv { Controls := [1, 2, 3], focusView := some 2 }
      (fun _ => some 9) 2).1.Controls = [1, 3] ∧
    (Window.SubviewRemoved sampleEnv { Controls := [1, 2, 3], focusView := some 2 }
      (fun _ => some 9) 2).1.focusView = none := by
  have h := C14_SubviewRemoved sampleEnv 9 { Controls := [1, 2, 3], focusView := some 2 }
    (fun _ => some 9) 2 ⟨by decide, fun c _ => ⟨rfl, rfl⟩⟩ (by decide)
  exact ⟨h.2.1.trans (by decide), h.2.2.2.2.1.trans (by decide)⟩

/-- Claim C15 against the code: `Window::SubviewRemoved` never writes `hoverView` or
`trackingView`, so both still refer to a removed view that they referred to before; and
`focusView` is compared with the result of the cast to `Control*`, so it still refers to a
removed view that is not a control. In the example views, after removing control 2 from a
window whose `hoverView` and `trackingView` are view 2, both are still view 2. -/
theorem C15_SubviewRemoved_keeps_hover_and_tracking (env : ViewEnv) (w : Window)
    (Owner : Nat → Option Nat) (subview : Nat) :
    (Window.SubviewRemoved env w Owner subview).1.hoverView = w.hoverView ∧
    (Window.SubviewRemoved env w Owner subview).1.trackingView = w.trackingView ∧
    (env.isControl subview = false → w.focusView = some subview →
      (Window.SubviewRemoved env w Owner subview).1.focusView = some subview) ∧
    (Window.SubviewRemoved sampleEnv
        { Controls := [1, 2], focusView := some 2, hoverView := some 2, trackingView := some 2 }
        (fun _ => some 9) 2).1 =
      { Controls := [1], focusView := none, hoverView := some 2, trackingView := some 2 } := by
  refine ⟨?_, ?_, ?_, by decide⟩
  · unfold Window.SubviewRemoved
    cases env.isControl subview <;> simp only [] <;> split_ifs <;> rfl
  · unfold Window.SubviewRemoved
    cases env.isControl subview <;> simp only [] <;> split_ifs <;> rfl
  · intro hctl hfocus
    unfold Window.SubviewRemoved
    simp [hctl, hfocus]

/-- Claim C15 against the code, at a view that is not a control and holds the focus. -/
theorem C15_witness :
    (Window.SubviewRemoved { sampleEnv with isControl := fun _ => false }
      { focusView := some 4 } (fun _ => none) 4).1.focusView = some 4 :=
  (C15_SubviewRemoved_keeps_hover_and_tracking { sampleEnv with isControl := fun _ => false }
    { focusView := some 4 } (fun _ => none) 4).2.2.1 rfl rfl

/-- Claim C19 against the code. `Window::SetFocused(NULL)` on a window with children asks
`TrySetFocus` for the first child only, and does nothing more when that is refused: when
the first child declines the focus, or the current focus holder does not release it, the
window is unchanged and no other child is tried. So when nothing was focused before and
the first child declines, nothing is focused afterwards although children exist, where
the comment on this branch reads "something should always be focused". The rest of the
claim holds: when the first child accepts and the holder, if there is one, releases,
`focusView` becomes the first child and nothing else changes; with no children the call
changes nothing. -/
theorem C19_SetFocused_default (env : ViewEnv) (w : Window) :
    (∀ (first : Nat) (rest : List Nat), w.Controls = first :: rest →
      (env.CanLockFocus first = false → w.focusView = none →
        (Window.SetFocused env w none).focusView = none) ∧
      (env.CanLockFocus first = false ∨
          (∃ f, w.focusView = some f ∧ env.CanUnlockFocus f = false) →
        Window.SetFocused env w none = w) ∧
      (env.CanLockFocus first = true →
        (∀ f, w.focusView = some f → env.CanUnlockFocus f = true) →
        Window.SetFocused env w none = { w with focusView := some first })) ∧
    (w.Controls = [] → Window.SetFocused env w none = w) := by
  have hrefused : ∀ (first : Nat) (rest : List Nat), w.Controls = first :: rest →
      (env.CanLockFocus first = false ∨
          (∃ f, w.focusView = some f ∧ env.CanUnlockFocus f = false)) →
      Window.SetFocused env w none = w := by
    intro first rest hC hrefuse
    simp only [Window.SetFocused, hC, Window.TrySetFocus, Option.any_some]
    rcases hrefuse with hlock | ⟨f, hf, hun⟩
    · simp [hlock]
    · cases hl : env.CanLockFocus first <;> simp [hf, hun]
  refine ⟨fun first rest hC => ⟨fun hlock hnone => ?_, hrefused first rest hC,
    fun hlock hunlock => ?_⟩, fun hC => ?_⟩
  · rw [hrefused first rest hC (Or.inl hlock)]
    exact hnone
  · simp only [Window.SetFocused, hC, Window.TrySetFocus, Option.any_some, hlock,
      Bool.not_true, Bool.false_eq_true, if_false]
    cases hf : w.focusView with
    | none => simp
    | some f => simp [hunlock f hf]
  · simp only [Window.SetFocused, hC]

/-- Claim C19 against the code, in the example views: the window has the children 2 and 1,
nothing is focused, and view 2, the first child, declines the focus. After
`SetFocused(NULL)` nothing is focused. -/
theorem C19_witness :
    (Window.SetFocused sampleEnv { Controls := [2, 1] } none).focusView = none :=
  ((C19_SetFocused_default sampleEnv { Controls := [2, 1] }).1 2 [1] rfl).1 (by decide) rfl

/-- Claim C18 against the code. For a function key (`GEM_FUNCTION1..GEM_FUNCTION16`)
`Window::OnSpecialKeyPress` leaves `ctrl` at `NULL`, so the branch that sends the button a
mouse-down and a mouse-up is never reached: no view receives a mouse-down or a mouse-up and
the call returns what the `View` base class returns for the key, whatever is focused. The
second half of the claim holds: with a focused control of kind button, a key that is no
function key, not return and not escape makes the call return false. In the example views,
with button 1 focused, key 144 (`GEM_FUNCTION1`) calls only the key handlers. -/
theorem C18_OnSpecialKeyPress_function_key (env : ViewEnv) (K : KeyCodes) (H : KeyHandlers)
    (w : Window) (key : Nat) :
    (K.GEM_FUNCTION1 ≤ key ∧ key ≤ K.GEM_FUNCTION16 →
      clickReceivers (Window.OnSpecialKeyPress env K H w key).2 = [] ∧
      (Window.OnSpecialKeyPress env K H w key).1 = H.baseOnKey key) ∧
    (∀ b, w.focusView = some b → env.isControl b = true →
      env.ControlType b = K.IE_GUI_BUTTON → K.IE_GUI_BUTTON ≠ K.IE_GUI_SCROLLBAR →
      ¬ (K.GEM_FUNCTION1 ≤ key ∧ key ≤ K.GEM_FUNCTION16) →
      key ≠ K.GEM_RETURN → key ≠ K.GEM_ESCAPE →
      (Window.OnSpecialKeyPress env K H w key).1 = false) ∧
    Window.OnSpecialKeyPress sampleEnv sampleKeys sampleKeyHandlers { focusView := some 1 } 144 =
      (true, [.OnSpecialKeyPress 1 144, .baseOnSpecialKeyPress 144]) := by
  refine ⟨fun hfn => ?_, fun b hfocus hctl htype hdistinct hnofn hret hesc => ?_, by decide⟩
  · have hctrl : Window.OnSpecialKeyPress.ctrl env K w key = none := by
      unfold Window.OnSpecialKeyPress.ctrl
      split_ifs <;> first | rfl | simp_all
    have hfirst : clickReceivers (Window.OnSpecialKeyPress.first K H w key).2 = [] := by
      unfold Window.OnSpecialKeyPress.first
      split <;> rfl
    unfold Window.OnSpecialKeyPress
    rw [hctrl]
    refine ⟨?_, rfl⟩
    simp only [clickReceivers, List.filterMap_append] at hfirst ⊢
    rw [hfirst]
    rfl
  · have hrange : (decide (key ≥ K.GEM_FUNCTION1) && decide (key ≤ K.GEM_FUNCTION16)) = false := by
      by_cases h1 : K.GEM_FUNCTION1 ≤ key
      · have h2 : ¬ key ≤ K.GEM_FUNCTION16 := fun h => hnofn ⟨h1, h⟩
        simp [h2]
      · simp [h1]
    have hctrl : Window.OnSpecialKeyPress.ctrl env K w key = some b := by
      unfold Window.OnSpecialKeyPress.ctrl
      simp [hret, hesc, hrange, Window.FocusedView, hfocus, hctl]
    have hsb : ¬ (env.ControlType b = K.IE_GUI_SCROLLBAR) := by
      rw [htype]; exact hdistinct
    unfold Window.OnSpecialKeyPress
    rw [hctrl]
    rw [htype] at hsb
    simp only [htype, hrange, if_neg hsb, if_false, if_true, Bool.false_eq_true]
    simp [hret, hesc]

/-- Claim C18 against the code in the example views, with button 1 focused: the function
key 150 reaches no mouse handler, and the key 65 is reported unhandled. -/
theorem C18_witness :
    clickReceivers (Window.OnSpecialKeyPress sampleEnv sampleKeys sampleKeyHandlers
      { focusView := some 1 } 150).2 = [] ∧
    (Window.OnSpecialKeyPress sampleEnv sampleKeys sampleKeyHandlers
      { focusView := some 1 } 65).1 = false :=
  ⟨((C18_OnSpecialKeyPress_function_key sampleEnv sampleKeys sampleKeyHandlers
      { focusView := some 1 } 150).1 (by decide)).1,
   (C18_OnSpecialKeyPress_function_key sampleEnv sampleKeys sampleKeyHandlers
      { focusView := some 1 } 65).2.1 1 rfl rfl rfl (by decide) (by decide) (by decide)
      (by decide)⟩

theorem Control.PerformAction_timer_frame (call : Callbacks) (c : Control) (key : ActionKey)
    (hframe : ∀ (k : Nat) (w : Control), (call k w).actionTimer = w.actionTimer) :
    (c.PerformAction call key).self.actionTimer = c.actionTimer ∧
    invalidatedTimers (c.PerformAction call key).trace = [] := by
  unfold Control.PerformAction
  cases hf : c.findAction key with
  | none => exact ⟨rfl, rfl⟩
  | some handler =>
    simp only []
    unfold Control.RunEventHandler
    cases hin : c.InHandler with
    | true => simp [invalidatedTimers]
    | false =>
      cases handler with
      | none => simp [invalidatedTimers]
      | some k =>
        cases hw : c.window.isNone with
        | true => simp [invalidatedTimers]
        | false => simp [hframe, invalidatedTimers]

/-- Claim C16 fails as stated. The example widget has timer 5 in flight and a handler bound
to a click of button 0 only; after a mouse-up of button 2 the widget still holds timer 5 and
the timer has not been invalidated. -/
theorem C16_counterexample :
    sampleRepeater.actionTimer = some 5 ∧
    (sampleRepeater.OnMouseUp idleCallbacks { button := 2 } 0).self.actionTimer = some 5 ∧
    invalidatedTimers (sampleRepeater.OnMouseUp idleCallbacks { button := 2 } 0).trace = [] := by
  decide

/-- Claim C16, amended. On a widget with an action-repeat timer in flight, a mouse-up whose
(modifier, button, repeat count) has a `Click` binding performs that action and leaves the
widget holding no action timer, and the timer invalidated is the one in flight provided the
handler leaves `actionTimer` as it finds it; a mouse-up with no `Click` binding under its
key does nothing: the widget keeps the timer and no timer is invalidated. -/
theorem C16_OnMouseUp_cancels_timer (call : Callbacks) (c : Control) (me : MouseEvent)
    (mod : Nat) (t : Nat) (htimer : c.actionTimer = some t) :
    (c.SupportsAction { type := .Click, mod := mod, button := me.button, count := me.repeats }
        = true →
      (c.OnMouseUp call me mod).self.actionTimer = none ∧
      ((∀ (k : Nat) (w : Control), (call k w).actionTimer = w.actionTimer) →
        invalidatedTimers (c.OnMouseUp call me mod).trace = [t])) ∧
    (c.SupportsAction { type := .Click, mod := mod, button := me.button, count := me.repeats }
        = false →
      c.OnMouseUp call me mod = { ret := (), self := c, trace := [] }) := by
  constructor
  · intro hsup
    constructor
    · simp only [Control.OnMouseUp, hsup, if_true]
      split <;> simp_all
    · intro hframe
      obtain ⟨h1, h2⟩ := Control.PerformAction_timer_frame call c
        { type := .Click, mod := mod, button := me.button, count := me.repeats } hframe
      simp only [Control.OnMouseUp, hsup, if_true, h1, htimer]
      simp only [invalidatedTimers, List.filterMap_append] at h2 ⊢
      rw [h2]
      rfl
  · intro hsup
    simp only [Control.OnMouseUp, hsup, Bool.false_eq_true, if_false]

/-- Claim C16 (amended) on the example widget: a mouse-up of button 0 invalidates timer 5
and clears `actionTimer`. -/
theorem C16_witness :
    (sampleRepeater.OnMouseUp idleCallbacks {} 0).self.actionTimer = none ∧
    invalidatedTimers (sampleRepeater.OnMouseUp idleCallbacks {} 0).trace = [5] :=
  ⟨((C16_OnMouseUp_cancels_timer idleCallbacks sampleRepeater {} 0 5 rfl).1 (by decide)).1,
   ((C16_OnMouseUp_cancels_timer idleCallbacks sampleRepeater {} 0 5 rfl).1 (by decide)).2
     (fun _ _ => rfl)⟩

/-- Claim C17. `Control::OnMouseDown` arms an action-repeat timer exactly when the repeat
interval `repeatDelay` is nonzero and the action map has a binding under the key `Click`
with exactly the event's modifier, button and repeat count: then it makes one call of
`core->SetTimer`, with the bound handler and the initial delay `ActionRepeatDelay` = 250
whatever the interval is, and stores the timer in `actionTimer`; otherwise it does nothing.
When the timer fires on a widget holding it, the callback first sets the timer's interval
to the widget's `repeatDelay` and then runs the handler. -/
theorem C17_OnMouseDown_arms_timer (c : Control) (me : MouseEvent) (mod : Nat) (timer : Nat) :
    ((c.repeatDelay ≠ 0 ∧ ∃ h, (clickKey me mod, h) ∈ c.actions) →
      c.OnMouseDown me mod timer =
        { ret := (), self := { c with actionTimer := some timer },
          trace := [.setTimer timer ((c.findAction (clickKey me mod)).getD none) 250] }) ∧
    (¬ (c.repeatDelay ≠ 0 ∧ ∃ h, (clickKey me mod, h) ∈ c.actions) →
      c.OnMouseDown me mod timer = { ret := (), self := c, trace := [] }) ∧
    (∀ (call : Callbacks) (w : Control) (k : Nat), w.actionTimer = some timer →
      Control.RepeatControlEventHandler call w (some k) =
        .ok { ret := (), self := call k w,
              trace := [.timerSetInterval timer w.repeatDelay, .handler k] }) := by
  have hsup := Control.supportsAction_iff_mem c (clickKey me mod)
  have hkey : ({ type := .Click, mod := mod, button := me.button, count := me.repeats }
      : ActionKey) = clickKey me mod := rfl
  refine ⟨fun harm => ?_, fun hno => ?_, fun call w k hw => ?_⟩
  · have h1 : c.SupportsAction (clickKey me mod) = true := hsup.mpr harm.2
    simp only [Control.OnMouseDown, hkey, h1, harm.1, Control.StartActionTimer,
      Control.ActionRepeatDelay, ne_eq, not_false_eq_true, decide_True, Bool.and_self, if_true]
  · have h1 : (decide (c.repeatDelay ≠ 0) && c.SupportsAction (clickKey me mod)) = false := by
      by_cases hd : c.repeatDelay = 0
      · simp [hd]
      · have hnone : ¬ ∃ h, (clickKey me mod, h) ∈ c.actions := fun hex => hno ⟨hd, hex⟩
        have hs : c.SupportsAction (clickKey me mod) = false := by
          cases hsv : c.SupportsAction (clickKey me mod) with
          | false => rfl
          | true => exact absurd (hsup.mp hsv) hnone
        simp [hs]
    simp only [Control.OnMouseDown, hkey, h1, Bool.false_eq_true, if_false]
  · cases w
    dsimp only at hw
    subst hw
    rfl

/-- Claim C17 on the example widget (interval 30, callback 4 bound to a plain click): a
mouse-down arms timer 8 with the delay 250, and its firing sets the interval 30 first. -/
theorem C17_witness :
    (sampleRepeater.OnMouseDown {} 0 8).trace = [.setTimer 8 (some 4) 250] ∧
    Control.RepeatControlEventHandler idleCallbacks (sampleRepeater.OnMouseDown {} 0 8).self
      (some 4) = .ok { ret := (), self := (sampleRepeater.OnMouseDown {} 0 8).self,
                       trace := [.timerSetInterval 8 30, .handler 4] } := by
  have h := C17_OnMouseDown_arms_timer sampleRepeater {} 0 8
  refine ⟨?_, ?_⟩
  · rw [h.1 ⟨by decide, some 4, by decide⟩]
    decide
  · exact h.2.2 idleCallbacks _ 4 (by decide)

theorem tolower_eq_space (ch : Nat) : tolower ch = 32 ↔ ch = 32 := by
  unfold tolower
  by_cases h : 65 ≤ ch ∧ ch ≤ 90
  · rw [if_pos h]; omega
  · rw [if_neg h]

theorem tolower_eq_zero (ch : Nat) : tolower ch = 0 ↔ ch = 0 := by
  unfold tolower
  by_cases h : 65 ≤ ch ∧ ch ≤ 90
  · rw [if_pos h]; omega
  · rw [if_neg h]

theorem tolower_not_upper (ch : Nat) : ¬ (65 ≤ tolower ch ∧ tolower ch ≤ 90) := by
  unfold tolower
  by_cases h : 65 ≤ ch ∧ ch ≤ 90
  · rw [if_pos h]; omega
  · rw [if_neg h]; exact h

theorem ReadResRef.lowerLoop_eight (b : List Nat) (last : Nat) (hb : b.length = 8) :
    ReadResRef.lowerLoop (b ++ [last]) 0 8 = b.map tolower ++ [last] := by
  match b, hb with
  | [b0, b1, b2, b3, b4, b5, b6, b7], _ => rfl

theorem ReadResRef.stripLoop_eq (pre : List Nat) :
    ∀ post : List Nat, ReadResRef.stripLoop (pre ++ post) pre.length =
      withoutTrailingSpaces pre ++
        List.replicate (pre.length - (withoutTrailingSpaces pre).length) 0 ++ post := by
  induction pre using List.reverseRecOn with
  | nil => intro post; simp [ReadResRef.stripLoop, withoutTrailingSpaces]
  | append_singleton init x ih =>
    intro post
    have hlen : (init ++ [x]).length = init.length + 1 := by simp
    have hget : (init ++ [x] ++ post).getD init.length 0 = x := by
      rw [List.append_assoc, List.getD_eq_getElem?_getD,
        List.getElem?_append_right (Nat.le_refl _), Nat.sub_self]
      simp
    rw [hlen, ReadResRef.stripLoop, hget]
    by_cases hx : x = 32
    · have hset : (init ++ [x] ++ post).set init.length 0 = init ++ (0 :: post) := by
        simp [List.set_append_right, List.set_append_left]
      have hpre : (List.rdropWhile (fun ch => decide (ch = 32)) init).length ≤ init.length :=
        (List.rdropWhile_prefix (fun ch => decide (ch = 32)) init).length_le
      rw [if_pos hx, hset, ih (0 :: post)]
      unfold withoutTrailingSpaces at hpre ⊢
      rw [List.rdropWhile_concat_pos _ _ _ (by simpa using hx)]
      have hrep : List.replicate (init.length + 1 -
            (List.rdropWhile (fun ch => decide (ch = 32)) init).length) 0 =
          List.replicate (init.length -
            (List.rdropWhile (fun ch => decide (ch = 32)) init).length) 0 ++ [0] := by
        rw [show init.length + 1 - (List.rdropWhile (fun ch => decide (ch = 32)) init).length =
          (init.length - (List.rdropWhile (fun ch => decide (ch = 32)) init).length) + 1 by omega,
          List.replicate_succ']
      rw [hrep]
      simp
    · rw [if_neg hx]
      unfold withoutTrailingSpaces
      rw [List.rdropWhile_concat_neg _ _ _ (by simpa using hx)]
      simp

theorem withoutTrailingSpaces_map_tolower (b : List Nat) :
    withoutTrailingSpaces (b.map tolower) = (withoutTrailingSpaces b).map tolower := by
  unfold withoutTrailingSpaces
  induction b using List.reverseRecOn with
  | nil => simp
  | append_singleton init x ih =>
    rw [List.map_append, List.map_singleton]
    by_cases hx : x = 32
    · rw [List.rdropWhile_concat_pos _ _ _ (by simpa using (tolower_eq_space x).mpr hx),
        List.rdropWhile_concat_pos _ _ _ (by simpa using hx), ih]
    · rw [List.rdropWhile_concat_neg _ _ _ (by simpa using fun h => hx ((tolower_eq_space x).mp h)),
        List.rdropWhile_concat_neg _ _ _ (by simpa using hx), List.map_append, List.map_singleton]

theorem withoutTrailingSpaces_append_spaces (b : List Nat) :
    b = withoutTrailingSpaces b ++
      List.replicate (b.length - (withoutTrailingSpaces b).length) 32 := by
  unfold withoutTrailingSpaces
  induction b using List.reverseRecOn with
  | nil => simp
  | append_singleton init x ih =>
    by_cases hx : x = 32
    · have hpre : (List.rdropWhile (fun ch => decide (ch = 32)) init).length ≤ init.length :=
        (List.rdropWhile_prefix (fun ch => decide (ch = 32)) init).length_le
      rw [List.rdropWhile_concat_pos _ _ _ (by simpa using hx), List.length_append,
        List.length_singleton,
        show init.length + 1 - (List.rdropWhile (fun ch => decide (ch = 32)) init).length =
          (init.length - (List.rdropWhile (fun ch => decide (ch = 32)) init).length) + 1 by omega,
        List.replicate_succ', ← List.append_assoc, ← ih, hx]
    · rw [List.rdropWhile_concat_neg _ _ _ (by simpa using hx)]
      simp

theorem withoutTrailingSpaces_getLast (b : List Nat) :
    (withoutTrailingSpaces b).getLast? ≠ some 32 := by
  unfold withoutTrailingSpaces
  by_cases hl : List.rdropWhile (fun ch => decide (ch = 32)) b = []
  · rw [hl]; simp
  · rw [List.getLast?_eq_getLast _ hl]
    have := List.rdropWhile_last_not (fun ch => decide (ch = 32)) b hl
    intro h
    apply this
    simpa using Option.some.inj h

theorem cString_of_no_nul (front : List Nat) (rest : List Nat)
    (h : ∀ ch ∈ front, ch ≠ 0) : cString (front ++ 0 :: rest) = front := by
  unfold cString
  induction front with
  | nil => simp
  | cons x xs ih =>
    have hx : x ≠ 0 := h x (List.mem_cons_self _ _)
    simp only [List.cons_append, List.takeWhile_cons, hx, ne_eq, not_false_eq_true,
      decide_True, if_true]
    rw [ih (fun ch hch => h ch (List.mem_cons_of_mem _ hch))]

theorem DataStream.ReadResRef_eq (GEM_ERROR len : Int) (b : List Nat) (last : Nat)
    (hb : b.length = 8) (hlen : len ≠ GEM_ERROR) :
    DataStream.ReadResRef GEM_ERROR len (b ++ [last]) =
      (len, (withoutTrailingSpaces b).map tolower ++
        List.replicate (8 - (withoutTrailingSpaces b).length) 0 ++ [0]) := by
  have hmap : (b.map tolower).length = 8 := by rw [List.length_map, hb]
  have hstrip := ReadResRef.stripLoop_eq (b.map tolower) [last]
  rw [hmap, withoutTrailingSpaces_map_tolower, List.length_map] at hstrip
  have hpre : (withoutTrailingSpaces b).length ≤ 8 := by
    have := (List.rdropWhile_prefix (fun ch => decide (ch = 32)) b).length_le
    rw [hb] at this
    exact this
  have hfront : ((withoutTrailingSpaces b).map tolower ++
      List.replicate (8 - (withoutTrailingSpaces b).length) 0).length = 8 := by
    rw [List.length_append, List.length_map, List.length_replicate]
    omega
  unfold DataStream.ReadResRef
  rw [if_neg hlen, ReadResRef.lowerLoop_eight b last hb]
  simp only [hstrip, Prod.mk.injEq, true_and]
  rw [List.set_append_right _ _ (by omega), hfront]
  rfl

/-- Claim C20 fails as stated. For the eight bytes `'A'`, `' '` and six NULs, read without
error, `ReadResRef` leaves `dest` holding the string `"a "`: its last character is a
space, because the run of trailing spaces of the eight bytes is empty. -/
theorem C20_counterexample :
    (DataStream.ReadResRef (-1) 8 [65, 32, 0, 0, 0, 0, 0, 0, 99]).2 =
      [97, 32, 0, 0, 0, 0, 0, 0, 0] ∧
    cString (DataStream.ReadResRef (-1) 8 [65, 32, 0, 0, 0, 0, 0, 0, 99]).2 = [97, 32] ∧
    (cString (DataStream.ReadResRef (-1) 8 [65, 32, 0, 0, 0, 0, 0, 0, 99]).2).getLast?
      = some 32 := by
  decide

/-- Claim C20, amended. Let `Read` return `len`, not the error code, with the eight bytes `b`
in `dest`. `ReadResRef` returns `len` and leaves `dest` as: `tolower` of the bytes before the
maximal run of trailing spaces of `b`, then `0` for every byte of that run, then the
terminator `0` at index 8. No byte of `dest` is an uppercase ASCII letter. When none of the
eight bytes is NUL, the resulting string is `tolower` of the bytes before the run and does
not end in a space. When `Read` returns the error code, `ReadResRef` returns `0` and sets
`dest[0]` to `0`, so the resulting string is empty. -/
theorem C20_ReadResRef (GEM_ERROR len : Int) (b : List Nat) (last : Nat) (hb : b.length = 8) :
    (len ≠ GEM_ERROR →
      (DataStream.ReadResRef GEM_ERROR len (b ++ [last])).1 = len ∧
      (DataStream.ReadResRef GEM_ERROR len (b ++ [last])).2 =
        (withoutTrailingSpaces b).map tolower ++
          List.replicate (8 - (withoutTrailingSpaces b).length) 0 ++ [0] ∧
      b = withoutTrailingSpaces b ++ List.replicate (8 - (withoutTrailingSpaces b).length) 32 ∧
      (withoutTrailingSpaces b).getLast? ≠ some 32 ∧
      (∀ ch ∈ (DataStream.ReadResRef GEM_ERROR len (b ++ [last])).2, ¬ (65 ≤ ch ∧ ch ≤ 90)) ∧
      ((∀ ch ∈ b, ch ≠ 0) →
        cString (DataStream.ReadResRef GEM_ERROR len (b ++ [last])).2 =
          (withoutTrailingSpaces b).map tolower ∧
        (cString (DataStream.ReadResRef GEM_ERROR len (b ++ [last])).2).getLast? ≠ some 32)) ∧
    (len = GEM_ERROR →
      (DataStream.ReadResRef GEM_ERROR len (b ++ [last])).1 = 0 ∧
      (DataStream.ReadResRef GEM_ERROR len (b ++ [last])).2 = 0 :: (b ++ [last]).tail ∧
      cString (DataStream.ReadResRef GEM_ERROR len (b ++ [last])).2 = []) := by
  constructor
  · intro hlen
    have hsplit := withoutTrailingSpaces_append_spaces b
    rw [hb] at hsplit
    rw [DataStream.ReadResRef_eq GEM_ERROR len b last hb hlen]
    refine ⟨rfl, rfl, hsplit, withoutTrailingSpaces_getLast b, ?_, fun hnul => ?_⟩
    · intro ch hch
      simp only [List.mem_append, List.mem_map, List.mem_replicate, List.mem_singleton] at hch
      rcases hch with (⟨x, -, rfl⟩ | ⟨-, rfl⟩) | rfl
      · exact tolower_not_upper x
      · omega
      · omega
    · have hfront : ∀ ch ∈ (withoutTrailingSpaces b).map tolower, ch ≠ 0 := by
        intro ch hch
        obtain ⟨x, hx, rfl⟩ := List.mem_map.mp hch
        have hxb : x ∈ b := (List.rdropWhile_prefix (fun ch => decide (ch = 32)) b).subset hx
        exact fun h0 => hnul x hxb ((tolower_eq_zero x).mp h0)
      have hc : cString ((withoutTrailingSpaces b).map tolower ++
          List.replicate (8 - (withoutTrailingSpaces b).length) 0 ++ [0]) =
            (withoutTrailingSpaces b).map tolower := by
        rw [List.append_assoc, ← List.replicate_succ', List.replicate_succ]
        exact cString_of_no_nul _ _ hfront
      rw [hc]
      refine ⟨rfl, ?_⟩
      rw [List.getLast?_map]
      intro h
      cases hl : (withoutTrailingSpaces b).getLast? with
      | none => rw [hl] at h; cases h
      | some x =>
        rw [hl] at h
        have hx : tolower x = 32 := Option.some.inj h
        exact withoutTrailingSpaces_getLast b (by rw [hl, (tolower_eq_space x).mp hx])
  · intro hlen
    match b, hb with
    | [b0, b1, b2, b3, b4, b5, b6, b7], _ =>
      simp [DataStream.ReadResRef, hlen, cString]

/-- Claim C20 (amended) at the bytes of `"AB C    "`: the result is `"ab c"`. -/
theorem C20_witness :
    (DataStream.ReadResRef (-1) 8 [65, 66, 32, 67, 32, 32, 32, 32, 99]).2 =
      [97, 98, 32, 99, 0, 0, 0, 0, 0] ∧
    cString (DataStream.ReadResRef (-1) 8 [65, 66, 32, 67, 32, 32, 32, 32, 99]).2 =
      [97, 98, 32, 99] := by
  have h := (C20_ReadResRef (-1) 8 [65, 66, 32, 67, 32, 32, 32, 32] 99 rfl).1 (by decide)
  exact ⟨h.2.1.trans (by decide), (h.2.2.2.2.2 (by decide)).1.trans (by decide)⟩

theorem EvaluateDialogTrigger.loop_items_evaluated (ev : String → Int) :
    ∀ (items : List TriggerItem) (strs : List String) (b : Bool),
      strs.map ev = items.flatMap TriggerItem.results →
      (∀ it ∈ items, it.shaped = true) → TriggerItem.chained items = true →
      (EvaluateDialogTrigger.loop ev strs 0 b).evaluated =
        strs.take (TriggerItem.callsUntilFalse items) := by
  intro items
  induction items with
  | nil =>
    intro strs b h _ _
    simp at h
    subst h
    simp [EvaluateDialogTrigger.loop]
  | cons it items ih =>
    intro strs b h hsh hch
    have hsh' : ∀ x ∈ items, x.shaped = true := fun x hx => hsh x (List.mem_cons_of_mem _ hx)
    have hch' : TriggerItem.chained items = true := by
      simp only [TriggerItem.chained, Bool.and_eq_true] at hch
      exact hch.2
    have hit := hsh it (List.mem_cons_self _ _)
    rw [List.flatMap_cons] at h
    cases it with
    | cond r =>
      simp only [TriggerItem.results, List.singleton_append] at h
      obtain ⟨s, strs', rfl, hs, h'⟩ := List.map_eq_cons_iff.mp h
      have hr : r ≤ 1 := by simpa [TriggerItem.shaped] using hit
      have ih1 := ih strs' b h' hsh' hch'
      have hm : ¬ (1 < ev s) := by omega
      have hloop : EvaluateDialogTrigger.loop ev (s :: strs') 0 b =
          if ev s = 0 then { ret := false, warnings := 0, evaluated := [s] }
          else (EvaluateDialogTrigger.loop ev strs' 0 b).after s 0 := by
        rw [EvaluateDialogTrigger.loop]; simp [hm]
      rw [hloop]
      simp only [TriggerItem.callsUntilFalse, TriggerItem.results, TriggerItem.passes,
        List.length_singleton]
      by_cases h0 : r = 0
      · have : ev s = 0 := by omega
        simp [this, h0]
      · have : ¬ ev s = 0 := by omega
        simp only [this, if_false, TriggerRun.after, ih1, ne_eq, h0, not_false_eq_true,
          decide_True, if_true]
        rw [Nat.add_comm, List.take_succ_cons]
    | orGroup n ms =>
      simp only [TriggerItem.results, List.cons_append] at h
      obtain ⟨m, strs1, rfl, hm, h1⟩ := List.map_eq_cons_iff.mp h
      obtain ⟨mstr, strs', rfl, hms, h'⟩ := List.map_eq_append_iff.mp h1
      simp only [TriggerItem.shaped, Bool.and_eq_true, decide_eq_true_eq, List.all_eq_true] at hit
      obtain ⟨⟨hn, hlen⟩, hall⟩ := hit
      have hlen' : (mstr.length : Int) = ev m := by
        rw [hm, ← hlen, ← hms, List.length_map]
      have hne : mstr ≠ [] := by
        rintro rfl
        simp at hlen'
        omega
      have hle : ∀ s ∈ mstr, ev s ≤ 1 := by
        intro s hs
        exact hall (ev s) (by rw [← hms]; exact List.mem_map_of_mem ev hs)
      have hany : (mstr.any fun s => decide (ev s ≠ 0)) = ms.any (fun m => decide (m ≠ 0)) := by
        rw [← hms]
        clear hms hlen' hne hle h h1 hlen hall
        induction mstr with
        | nil => rfl
        | cons x xs ihx => simp only [List.any_cons, List.map_cons, ihx]
      have hmslen : ms.length = mstr.length := by rw [← hms, List.length_map]
      have ih1 := ih strs' true h' hsh' hch'
      rw [EvaluateDialogTrigger.loop_marker ev m _ 0 b (by omega), ← hlen',
        EvaluateDialogTrigger.loop_members ev strs' mstr false hne hle, hany]
      simp only [TriggerItem.callsUntilFalse, TriggerItem.results, TriggerItem.passes,
        List.length_cons, Bool.false_or, hmslen]
      by_cases ha : (ms.any fun m => decide (m ≠ 0)) = true
      · rw [if_pos ha, if_pos ha]
        simp only [TriggerRun.after, ih1]
        rw [show mstr.length + 1 + TriggerItem.callsUntilFalse items =
          (mstr.length + TriggerItem.callsUntilFalse items) + 1 by omega, List.take_succ_cons,
          List.take_append]
      · rw [if_neg ha, if_neg ha]
        simp only [TriggerRun.after, Nat.add_zero]
        rw [List.take_succ_cons, List.take_left']
        rfl
    | openGroup n ms =>
      simp only [TriggerItem.results, List.cons_append] at h
      obtain ⟨m, strs1, rfl, hm, h1⟩ := List.map_eq_cons_iff.mp h
      obtain ⟨mstr, strs', rfl, hms, h'⟩ := List.map_eq_append_iff.mp h1
      simp only [TriggerItem.shaped, Bool.and_eq_true, decide_eq_true_eq, List.all_eq_true] at hit
      obtain ⟨⟨hn, hlen⟩, hall⟩ := hit
      have hlen' : (mstr.length : Int) < ev m := by
        rw [hm, ← hms, List.length_map] at *; exact hlen
      have hle : ∀ s ∈ mstr, ev s ≤ 1 := by
        intro s hs
        exact hall (ev s) (by rw [← hms]; exact List.mem_map_of_mem ev hs)
      have hmslen : ms.length = mstr.length := by rw [← hms, List.length_map]
      have ih1 := ih strs' b h' hsh' hch'
      rw [EvaluateDialogTrigger.loop_marker ev m _ 0 b (by omega),
        EvaluateDialogTrigger.loop_open ev strs' mstr (ev m) false hlen' hle]
      simp only [TriggerItem.callsUntilFalse, TriggerItem.results, TriggerItem.passes,
        List.length_cons, TriggerRun.after, if_true, hmslen]
      rw [show mstr.length + 1 + TriggerItem.callsUntilFalse items =
        (mstr.length + TriggerItem.callsUntilFalse items) + 1 by omega, List.take_succ_cons,
        List.take_append, ← ih1]
      cases items with
      | nil =>
        simp at h'
        subst h'
        simp [EvaluateDialogTrigger.loop]
      | cons it2 items2 =>
        have hit2 := hsh' it2 (List.mem_cons_self _ _)
        rw [List.flatMap_cons] at h'
        have hhead : ∃ m2 tail, strs' = m2 :: tail ∧ 1 < ev m2 := by
          cases it2 with
          | cond r => simp [TriggerItem.chained] at hch
          | orGroup n2 ms2 =>
            simp only [TriggerItem.results, List.cons_append] at h'
            obtain ⟨m2, tail, rfl, hm2, -⟩ := List.map_eq_cons_iff.mp h'
            simp only [TriggerItem.shaped, Bool.and_eq_true, decide_eq_true_eq] at hit2
            exact ⟨m2, tail, rfl, by omega⟩
          | openGroup n2 ms2 =>
            simp only [TriggerItem.results, List.cons_append] at h'
            obtain ⟨m2, tail, rfl, hm2, -⟩ := List.map_eq_cons_iff.mp h'
            simp only [TriggerItem.shaped, Bool.and_eq_true, decide_eq_true_eq] at hit2
            exact ⟨m2, tail, rfl, by omega⟩
        obtain ⟨m2, tail, rfl, hm2⟩ := hhead
        rw [EvaluateDialogTrigger.loop_marker ev m2 tail _ _ hm2,
          EvaluateDialogTrigger.loop_marker ev m2 tail 0 b hm2]
        rfl

theorem TriggerItem.callsUntilFalse_le (items : List TriggerItem) :
    TriggerItem.callsUntilFalse items ≤ (items.flatMap TriggerItem.results).length := by
  induction items with
  | nil => simp [TriggerItem.callsUntilFalse]
  | cons it rest ih =>
    rw [List.flatMap_cons, List.length_append, TriggerItem.callsUntilFalse]
    split_ifs <;> omega

theorem TriggerItem.callsUntilFalse_of_all_pass (items : List TriggerItem)
    (h : ∀ it ∈ items, it.passes = true) :
    TriggerItem.callsUntilFalse items = (items.flatMap TriggerItem.results).length := by
  induction items with
  | nil => simp [TriggerItem.callsUntilFalse]
  | cons it rest ih =>
    rw [List.flatMap_cons, List.length_append, TriggerItem.callsUntilFalse,
      if_pos (h it (List.mem_cons_self _ _)),
      ih (fun x hx => h x (List.mem_cons_of_mem _ hx))]

theorem TriggerItem.callsUntilFalse_eq_plain (items : List TriggerItem)
    (h : ∀ n members, TriggerItem.orGroup n members ∈ items →
      (TriggerItem.orGroup n members).passes = true) :
    TriggerItem.callsUntilFalse items = TriggerItem.callsUntilPlainZero items := by
  induction items with
  | nil => rfl
  | cons it rest ih =>
    have ih' := ih (fun n members hm => h n members (List.mem_cons_of_mem _ hm))
    cases it with
    | cond r =>
      by_cases h0 : r = 0 <;>
        simp [TriggerItem.callsUntilFalse, TriggerItem.callsUntilPlainZero, TriggerItem.results,
          TriggerItem.passes, h0, ih']
    | orGroup n members =>
      have hp := h n members (List.mem_cons_self _ _)
      simp [TriggerItem.callsUntilFalse, TriggerItem.callsUntilPlainZero, hp, ih']
    | openGroup n members =>
      simp [TriggerItem.callsUntilFalse, TriggerItem.callsUntilPlainZero, TriggerItem.passes, ih']

/-- Claim C21 fails as stated. For the strings whose results are `[2,0,0,1]`, an OR-group of
two zero members and then a passing condition, no result `0` lies outside an OR-group, so
the claim gives four evaluator calls (the full length); `EvaluateDialogTrigger` stops after
the third string, the last member of the failed group, and never evaluates the fourth. -/
theorem C21_counterexample :
    (DialogString.mk ["ab", "", "", "x"]).strings.map (lengthEvaluator ()) =
      [TriggerItem.orGroup 2 [0, 0], TriggerItem.cond 1].flatMap TriggerItem.results ∧
    (∀ it ∈ [TriggerItem.orGroup 2 [0, 0], TriggerItem.cond 1], it.wellFormed = true) ∧
    TriggerItem.callsUntilPlainZero [TriggerItem.orGroup 2 [0, 0], TriggerItem.cond 1] = 4 ∧
    (EvaluateDialogTrigger lengthEvaluator ()
      (some (DialogString.mk ["ab", "", "", "x"]))).evaluated = ["ab", "", ""] := by
  decide

/-- Claim C21, amended. `Dialog::EvaluateDialogTrigger` calls the evaluator on the strings in
order and stops at the first hard false, evaluating no later string: a result `0` outside
an open OR-group, or the last declared member of an OR-group whose members are all `0`.
While an OR-group is open it evaluates every declared member, also after a nonzero one. So
the strings evaluated are the first `callsUntilFalse` strings: those up to and including the
first hard false, and all of them if there is none. This is the count the claim states
whenever every complete OR-group has a nonzero member. -/
theorem C21_evaluator_calls {Scriptable : Type}
    (EvaluateString : Scriptable → String → Int) (target : Scriptable) (trigger : DialogString)
    (items : List TriggerItem) (hshape : ∀ it ∈ items, it.shaped = true)
    (hchain : TriggerItem.chained items = true)
    (hres : trigger.strings.map (EvaluateString target) = items.flatMap TriggerItem.results) :
    (EvaluateDialogTrigger EvaluateString target (some trigger)).evaluated =
      trigger.strings.take (TriggerItem.callsUntilFalse items) ∧
    (EvaluateDialogTrigger EvaluateString target (some trigger)).evaluated.length =
      TriggerItem.callsUntilFalse items ∧
    ((∀ it ∈ items, it.passes = true) →
      (EvaluateDialogTrigger EvaluateString target (some trigger)).evaluated = trigger.strings) ∧
    ((∀ n members, TriggerItem.orGroup n members ∈ items →
        (TriggerItem.orGroup n members).passes = true) →
      (EvaluateDialogTrigger EvaluateString target (some trigger)).evaluated.length =
        TriggerItem.callsUntilPlainZero items) := by
  have hev : (EvaluateDialogTrigger EvaluateString target (some trigger)).evaluated =
      trigger.strings.take (TriggerItem.callsUntilFalse items) :=
    EvaluateDialogTrigger.loop_items_evaluated (EvaluateString target) items trigger.strings
      true hres hshape hchain
  have hlen : trigger.strings.length = (items.flatMap TriggerItem.results).length := by
    rw [← hres, List.length_map]
  have hle := TriggerItem.callsUntilFalse_le items
  have hcount : (EvaluateDialogTrigger EvaluateString target (some trigger)).evaluated.length =
      TriggerItem.callsUntilFalse items := by
    rw [hev, List.length_take]
    omega
  refine ⟨hev, hcount, fun hall => ?_, fun hgroups => ?_⟩
  · rw [hev, TriggerItem.callsUntilFalse_of_all_pass items hall, ← hlen, List.take_length]
  · rw [hcount, TriggerItem.callsUntilFalse_eq_plain items hgroups]

/-- Claim C21 (amended) at the strings whose results are `[3,1,0,1,0,1]`: every member of
the group of three is evaluated, the zero condition after it stops the run, and the last
string is not evaluated. -/
theorem C21_witness :
    (EvaluateDialogTrigger lengthEvaluator ()
      (some (DialogString.mk ["abc", "x", "", "y", "", "z"]))).evaluated =
        ["abc", "x", "", "y", ""] :=
  (C21_evaluator_calls lengthEvaluator () (DialogString.mk ["abc", "x", "", "y", "", "z"])
    [TriggerItem.orGroup 3 [1, 0, 1], TriggerItem.cond 0, TriggerItem.cond 1]
    (by decide) (by decide) (by decide)).1.trans (by decide)

set_option maxRecDepth 8000 in
/-- The views whose `OnMouseLeave` runs during `DispatchMouseOver`. -/
theorem Window.DispatchMouseOver_leave (env : ViewEnv) (now : Nat) (w : Window)
    (p : Point) :
    leaveReceivers (Window.DispatchMouseOver env now w p).2 =
      (if w.hoverView ≠ env.SubviewAt p then w.hoverView.toList else []) := by
  obtain ⟨fv, tv, hv, cs, dr, ttv, ttt, sb⟩ := w
  rcases hx : env.SubviewAt p with _ | x <;> rcases hv with _ | h <;> rcases tv with _ | t <;>
    rcases dr with _ | d
  all_goals try (by_cases e1 : t = h)
  all_goals try (by_cases e2 : x = h)
  all_goals try (cases m : env.TracksMouseDown t)
  all_goals try subst e1
  all_goals try subst e2
  all_goals try (have e3 := Ne.symm e2)
  all_goals simp [Window.DispatchMouseOver, leaveReceivers, *]

set_option maxRecDepth 8000 in
/-- The views whose `OnMouseEnter` runs during `DispatchMouseOver`. -/
theorem Window.DispatchMouseOver_enter (env : ViewEnv) (now : Nat) (w : Window)
    (p : Point) :
    enterReceivers (Window.DispatchMouseOver env now w p).2 =
      (if env.SubviewAt p ≠ w.hoverView then (env.SubviewAt p).toList else []) := by
  obtain ⟨fv, tv, hv, cs, dr, ttv, ttt, sb⟩ := w
  rcases hx : env.SubviewAt p with _ | x <;> rcases hv with _ | h <;> rcases tv with _ | t <;>
    rcases dr with _ | d
  all_goals try (by_cases e1 : t = h)
  all_goals try (by_cases e2 : x = h)
  all_goals try (cases m : env.TracksMouseDown t)
  all_goals try subst e1
  all_goals try subst e2
  all_goals try (have e3 := Ne.symm e2)
  all_goals simp [Window.DispatchMouseOver, enterReceivers, *]

set_option maxRecDepth 8000 in
/-- The views whose `OnMouseOver` runs during `DispatchMouseOver`. -/
theorem Window.DispatchMouseOver_over (env : ViewEnv) (now : Nat) (w : Window)
    (p : Point) :
    overReceivers (Window.DispatchMouseOver env now w p).2 =
      ((Window.DispatchMouseOver env now w p).1.trackingView.or (env.SubviewAt p)).toList := by
  obtain ⟨fv, tv, hv, cs, dr, ttv, ttt, sb⟩ := w
  rcases hx : env.SubviewAt p with _ | x <;> rcases hv with _ | h <;> rcases tv with _ | t <;>
    rcases dr with _ | d
  all_goals try (by_cases e1 : t = h)
  all_goals try (by_cases e2 : x = h)
  all_goals try (cases m : env.TracksMouseDown t)
  all_goals try subst e1
  all_goals try subst e2
  all_goals try (have e3 := Ne.symm e2)
  all_goals simp [Window.DispatchMouseOver, overReceivers, *]

set_option maxRecDepth 8000 in
/-- The value of `trackingView` when `DispatchMouseOver` returns. -/
theorem Window.DispatchMouseOver_trackingView (env : ViewEnv) (now : Nat) (w : Window)
    (p : Point) :
    (Window.DispatchMouseOver env now w p).1.trackingView =
      (if w.hoverView ≠ env.SubviewAt p ∧ w.trackingView = w.hoverView ∧
          w.trackingView.any (fun tv => !env.TracksMouseDown tv) then none
        else w.trackingView) := by
  obtain ⟨fv, tv, hv, cs, dr, ttv, ttt, sb⟩ := w
  rcases hx : env.SubviewAt p with _ | x <;> rcases hv with _ | h <;> rcases tv with _ | t <;>
    rcases dr with _ | d
  all_goals try (by_cases e1 : t = h)
  all_goals try (by_cases e2 : x = h)
  all_goals try (cases m : env.TracksMouseDown t)
  all_goals try subst e1
  all_goals try subst e2
  all_goals try (have e3 := Ne.symm e2)
  all_goals simp [Window.DispatchMouseOver, *]

/-- Claim C22. After `Window::DispatchMouseOver(p)`, `hoverView` and `TooltipView` are the
hit-test target at `p` (possibly `NULL`). `OnMouseLeave` is called, on the previous
`hoverView`, exactly when that is not `NULL` and differs from the target; `OnMouseEnter` is
called, on the target, exactly when the target is not `NULL` and differs from the previous
`hoverView`. `OnMouseOver` is called on `trackingView` if it is still set when the call
returns (it is cleared exactly when the previous `hoverView` was left, was the tracking view
and does not declare `TracksMouseDown`), otherwise on the target, and on no view when both
are `NULL`; never on two views. -/
theorem C22_DispatchMouseOver (env : ViewEnv) (now : Nat) (w : Window) (p : Point) :
    (Window.DispatchMouseOver env now w p).1.hoverView = env.SubviewAt p ∧
    (Window.DispatchMouseOver env now w p).1.TooltipView = env.SubviewAt p ∧
    leaveReceivers (Window.DispatchMouseOver env now w p).2 =
      (if w.hoverView ≠ env.SubviewAt p then w.hoverView.toList else []) ∧
    enterReceivers (Window.DispatchMouseOver env now w p).2 =
      (if env.SubviewAt p ≠ w.hoverView then (env.SubviewAt p).toList else []) ∧
    overReceivers (Window.DispatchMouseOver env now w p).2 =
      ((Window.DispatchMouseOver env now w p).1.trackingView.or (env.SubviewAt p)).toList ∧
    (Window.DispatchMouseOver env now w p).1.trackingView =
      (if w.hoverView ≠ env.SubviewAt p ∧ w.trackingView = w.hoverView ∧
          w.trackingView.any (fun tv => !env.TracksMouseDown tv) then none
        else w.trackingView) :=
  ⟨rfl, rfl, Window.DispatchMouseOver_leave env now w p, Window.DispatchMouseOver_enter env now w p,
    Window.DispatchMouseOver_over env now w p, Window.DispatchMouseOver_trackingView env now w p⟩

end GemRB
